import Mathlib

/-!
Verification development for the `kernel.concurrency` package
(`task_manager.py` and `watchdog.py`): a shallow embedding of the
TaskManager / Watchdog state machines, followed by theorems that settle
the specification claims against it.

Modelling conventions:
* Task ids are `String`s, generated as in the source
  (`"task_" ++ counter ++ "_" ++ clock`), with the wall clock passed in
  explicitly as a `Nat` parameter.
* The managed-task table (`self._tasks`, an insertion-ordered dict) is an
  association list `List (String × ManagedTask)`; new keys are appended.
* A priority queue (`asyncio.Queue`) is a FIFO `List String` whose head is
  the front; `put_nowait` appends at the back (queues are unbounded, so
  the `QueueFull` branch of `_enqueue_task` is unreachable and not
  modelled).
* Coroutine settlement is an external input: `RunOutcome` says whether the
  awaited task returned, raised, or was cancelled.  Timestamps, result
  values and the logging calls are not referenced by any claim and are
  omitted; `error` keeps the exception message string.
* `_execute_task` is awaited inline by the scheduler loop
  (`await self._execute_task(task_id)` at task_manager.py:328), so one
  dispatch runs to settlement before the next pop: the embedding of one
  scheduler iteration is a sequential function, and the visible
  intermediate states form the execution trace.
* User callbacks registered with `add_complete_callback` /
  `add_failed_callback` observe the task object but are external code; the
  manager state they can reach is not mutated by the manager itself, so
  callback invocation is not modelled as a state change.
-/

namespace MoFox

/-- `TaskPriority` from task_manager.py:28-33. -/
inductive TaskPriority where
  | LOW
  | NORMAL
  | HIGH
  | CRITICAL
deriving DecidableEq, Repr

/-- `TaskPriority.value` (`LOW = 0, NORMAL = 1, HIGH = 2, CRITICAL = 3`). -/
def TaskPriority.value : TaskPriority → Nat
  | .LOW => 0
  | .NORMAL => 1
  | .HIGH => 2
  | .CRITICAL => 3

/-- `sorted(TaskPriority, key=lambda p: p.value, reverse=True)` at
task_manager.py:319: the scan order of the scheduler loop. -/
def prioritiesDesc : List TaskPriority :=
  [.CRITICAL, .HIGH, .NORMAL, .LOW]

/-- `TaskState` from task_manager.py:36-44. -/
inductive TaskState where
  | QUEUED
  | WAITING
  | RUNNING
  | COMPLETED
  | FAILED
  | CANCELLED
  | RETRYING
deriving DecidableEq, Repr

/-- `ManagedTask.is_terminal_state` (task_manager.py:92-99). -/
def TaskState.isTerminal : TaskState → Bool
  | .COMPLETED => true
  | .FAILED => true
  | .CANCELLED => true
  | _ => false

/-- `TaskConfig` from task_manager.py:47-57.  `timeout`, `retry_delay` and
`metadata` are not referenced by any claim about the manager itself and are
omitted here (the watchdog model below carries its own timeout field). -/
structure TaskConfig where
  priority : TaskPriority := .NORMAL
  maxRetries : Nat := 0
  dependencies : List String := []
  cancelOnDependencyFailure : Bool := true
  enableWatchdog : Bool := true
deriving DecidableEq, Repr

/-- `ManagedTask` from task_manager.py:60-82.  `handle` models whether
`managed_task.task` is non-`None`; `cancelRequested` models a delivered
`task.cancel()` on the live handle; `dependents` (a Python set, filled by
`dep_task.dependents.add(task_id)`) is a duplicate-free list in first
insertion order. -/
structure ManagedTask where
  taskId : String
  name : String
  config : TaskConfig := {}
  state : TaskState := .QUEUED
  handle : Bool := false
  cancelRequested : Bool := false
  error : Option String := none
  retryCount : Nat := 0
  dependents : List String := []
deriving DecidableEq, Repr

/-- `ManagedTask.can_retry` (task_manager.py:101-104). -/
def ManagedTask.canRetry (t : ManagedTask) : Bool :=
  t.retryCount < t.config.maxRetries

/-- The `self._stats` defaultdict counters touched by the manager
(task_manager.py:154 and the increment sites). -/
structure Stats where
  totalSubmitted : Nat := 0
  totalCompleted : Nat := 0
  totalFailed : Nat := 0
  totalCancelled : Nat := 0
  totalRetries : Nat := 0
  totalRunning : Int := 0
deriving DecidableEq, Repr

/-- The mutable state of a `TaskManager` instance (task_manager.py:121-161).
The scheduler task handle and the semaphore object are represented by the
`running` flag and by `maxConcurrentTasks` (the semaphore's size); the
sequential scheduler embedding below accounts for acquire/release. -/
structure TaskManagerState where
  tasks : List (String × ManagedTask) := []
  taskCounter : Nat := 0
  running : Bool := false
  maxConcurrentTasks : Nat := 10
  queues : TaskPriority → List String := fun _ => []
  stats : Stats := {}

/-- `self._tasks.get(task_id)`. -/
def lookupTask : List (String × ManagedTask) → String → Option ManagedTask
  | [], _ => none
  | (k, v) :: rest, id => if k = id then some v else lookupTask rest id

/-- In-place mutation of the task object stored under `id` (Python mutates
the shared `ManagedTask` object held by the dict, whose keys are unique, so
exactly the first matching entry is rewritten). -/
def updateTask : List (String × ManagedTask) → String →
    (ManagedTask → ManagedTask) → List (String × ManagedTask)
  | [], _, _ => []
  | (k, v) :: rest, id, f =>
    if k = id then (k, f v) :: rest else (k, v) :: updateTask rest id f

/-- `self._tasks[task_id] = managed_task`: dict assignment, overwriting in
place when the key exists and appending otherwise. -/
def insertTask : List (String × ManagedTask) → String → ManagedTask →
    List (String × ManagedTask)
  | [], id, t => [(id, t)]
  | (k, v) :: rest, id, t =>
    if k = id then (k, t) :: rest else (k, v) :: insertTask rest id t

/-- State of the task stored under `id`, if present. -/
def stateOf (σ : TaskManagerState) (id : String) : Option TaskState :=
  (lookupTask σ.tasks id).map (·.state)

/-- Error field of the task stored under `id`, if present. -/
def errorOf (σ : TaskManagerState) (id : String) : Option (Option String) :=
  (lookupTask σ.tasks id).map (·.error)

/-- `managed_task.state = s` on the task object under `id`. -/
def setState (σ : TaskManagerState) (id : String) (s : TaskState) :
    TaskManagerState :=
  { σ with tasks := updateTask σ.tasks id (fun t => { t with state := s }) }

/-- `_enqueue_task` (task_manager.py:275-281): push the id at the back of
the sub-queue of the task's configured priority.  The queues are unbounded,
so the `QueueFull` branch never fires. -/
def enqueueTask (σ : TaskManagerState) (taskId : String) : TaskManagerState :=
  match lookupTask σ.tasks taskId with
  | none => σ
  | some t =>
    { σ with queues := fun p =>
        if p = t.config.priority then σ.queues p ++ [taskId] else σ.queues p }

/-- `dep_task.dependents.add(task_id)` (task_manager.py:301): record the
reverse dependency edge; a Python set add is idempotent. -/
def registerDependent (σ : TaskManagerState) (depId taskId : String) :
    TaskManagerState :=
  { σ with tasks := updateTask σ.tasks depId (fun t =>
      if taskId ∈ t.dependents then t
      else { t with dependents := t.dependents ++ [taskId] }) }

/-- The cancellation branch of `_check_dependencies`
(task_manager.py:306-309): `task.state = CANCELLED`,
`task.error = Exception("依赖任务失败: dep")`, `total_cancelled += 1`. -/
def cancelForDepFailure (σ : TaskManagerState) (taskId depId : String) :
    TaskManagerState :=
  let σ' := { σ with tasks := updateTask σ.tasks taskId (fun t =>
      { t with state := .CANCELLED,
               error := some ("依赖任务失败: " ++ depId) }) }
  { σ' with stats := { σ'.stats with
      totalCancelled := σ'.stats.totalCancelled + 1 } }

/-- The `for dep_id in task.config.dependencies` loop of
`_check_dependencies` (task_manager.py:294-312), threading the state:
a missing dependency fails the check; the reverse edge is recorded before
the state test; a `COMPLETED` dependency is skipped; a `FAILED` dependency
with `cancel_on_dependency_failure` cancels the task; any other
non-`COMPLETED` state just fails the check. -/
def checkDepsGo (σ : TaskManagerState) (taskId : String) (cancelFlag : Bool) :
    List String → TaskManagerState × Bool
  | [] => (σ, true)
  | depId :: rest =>
    match lookupTask σ.tasks depId with
    | none => (σ, false)
    | some dep =>
      let σ' := registerDependent σ depId taskId
      if dep.state = .COMPLETED then
        checkDepsGo σ' taskId cancelFlag rest
      else if dep.state = .FAILED ∧ cancelFlag then
        (cancelForDepFailure σ' taskId depId, false)
      else
        (σ', false)

/-- `_check_dependencies` (task_manager.py:283-312). -/
def checkDependencies (σ : TaskManagerState) (taskId : String) :
    TaskManagerState × Bool :=
  match lookupTask σ.tasks taskId with
  | none => (σ, false)
  | some t =>
    checkDepsGo σ taskId t.config.cancelOnDependencyFailure
      t.config.dependencies

/-- The id `f"task_{counter}_{int(time.time()*1000)}"` built at
task_manager.py:243, with the clock passed in. -/
def makeTaskId (counter now : Nat) : String :=
  "task_" ++ toString counter ++ "_" ++ toString now

/-- The `ManagedTask` object created by `submit_task`
(task_manager.py:249-256). -/
def newSubmittedTask (σ : TaskManagerState) (now : Nat) (name : Option String)
    (config : Option TaskConfig) : ManagedTask :=
  { taskId := makeTaskId (σ.taskCounter + 1) now
    name := name.getD ("Task-" ++ toString (σ.taskCounter + 1))
    config := config.getD {} }

/-- The manager state right after `self._tasks[task_id] = managed_task` and
`self._stats['total_submitted'] += 1` (task_manager.py:242-259); the
created `ManagedTask` has all runtime fields at their dataclass defaults
(`state = QUEUED`, `retry_count = 0`, no error, no dependents). -/
def submitInserted (σ : TaskManagerState) (now : Nat) (name : Option String)
    (config : Option TaskConfig) : TaskManagerState :=
  { σ with
    taskCounter := σ.taskCounter + 1
    tasks := insertTask σ.tasks (makeTaskId (σ.taskCounter + 1) now)
      (newSubmittedTask σ now name config)
    stats := { σ.stats with
      totalSubmitted := σ.stats.totalSubmitted + 1 } }

/-- `submit_task` (task_manager.py:217-273).  Raises (`.error`) iff the
manager is not running.  Note the faithful quirk: when the dependency check
fails, the state is set to `WAITING` even if the check itself just set it
to `CANCELLED` (task_manager.py:263-267 overwrite). -/
def submitTask (σ : TaskManagerState) (now : Nat) (name : Option String)
    (config : Option TaskConfig) :
    Except String (TaskManagerState × String) :=
  if ¬ σ.running then
    .error "TaskManager 未运行，请先调用 start()"
  else
    let taskId := makeTaskId (σ.taskCounter + 1) now
    let σ₁ := submitInserted σ now name config
    if (config.getD {}).dependencies ≠ [] then
      match checkDependencies σ₁ taskId with
      | (σ₂, true) => .ok (enqueueTask (setState σ₂ taskId .QUEUED) taskId, taskId)
      | (σ₂, false) => .ok (setState σ₂ taskId .WAITING, taskId)
    else
      .ok (enqueueTask (setState σ₁ taskId .QUEUED) taskId, taskId)

/-- Settlement of the awaited coroutine in `_execute_task`
(task_manager.py:374-381): normal return, exception, or
`asyncio.CancelledError`. -/
inductive RunOutcome where
  | success
  | failure (msg : String)
  | cancelled
deriving DecidableEq, Repr

/-- The shared per-task body of `_notify_dependents`
(task_manager.py:470-478) and `_check_waiting_tasks`
(task_manager.py:482-486): skip unless the task exists and is `WAITING`;
otherwise run `_check_dependencies` and, when it passes, set the task
`QUEUED` and enqueue it. -/
def recheckTask (σ : TaskManagerState) (id : String) : TaskManagerState :=
  match lookupTask σ.tasks id with
  | none => σ
  | some t =>
    if t.state = .WAITING then
      match checkDependencies σ id with
      | (σ₂, true) => enqueueTask (setState σ₂ id .QUEUED) id
      | (σ₂, false) => σ₂
    else σ

/-- Iterate `recheckTask` over a snapshot of ids (both loops iterate a
snapshot: `task.dependents` resp. `list(self._tasks.items())`). -/
def recheckGo (σ : TaskManagerState) : List String → TaskManagerState
  | [] => σ
  | id :: rest => recheckGo (recheckTask σ id) rest

/-- `_notify_dependents` (task_manager.py:464-478). -/
def notifyDependents (σ : TaskManagerState) (taskId : String) :
    TaskManagerState :=
  match lookupTask σ.tasks taskId with
  | none => σ
  | some t => recheckGo σ t.dependents

/-- `_on_task_success` (task_manager.py:387-407): `COMPLETED`, counter,
then dependent notification. -/
def onTaskSuccess (σ : TaskManagerState) (taskId : String) :
    TaskManagerState :=
  let σ₁ := { σ with tasks := updateTask σ.tasks taskId (fun t =>
      { t with state := .COMPLETED }) }
  let σ₂ := { σ₁ with stats := { σ₁.stats with
      totalCompleted := σ₁.stats.totalCompleted + 1 } }
  notifyDependents σ₂ taskId

/-- `_on_task_error` (task_manager.py:409-451).  When `can_retry`, the task
goes through the transient `RETRYING` state during the retry-delay sleep and
is then reset and re-enqueued as `QUEUED` (the post-sleep state is the one
modelled); otherwise it is marked `FAILED` and dependents are notified. -/
def onTaskError (σ : TaskManagerState) (taskId : String) (msg : String) :
    TaskManagerState :=
  match lookupTask σ.tasks taskId with
  | none => σ
  | some t =>
    if t.canRetry then
      let σ₁ := { σ with tasks := updateTask σ.tasks taskId (fun u =>
          { u with retryCount := u.retryCount + 1, state := .QUEUED,
                   handle := false, error := none }) }
      let σ₂ := { σ₁ with stats := { σ₁.stats with
          totalRetries := σ₁.stats.totalRetries + 1 } }
      enqueueTask σ₂ taskId
    else
      let σ₁ := { σ with tasks := updateTask σ.tasks taskId (fun u =>
          { u with state := .FAILED, error := some msg }) }
      let σ₂ := { σ₁ with stats := { σ₁.stats with
          totalFailed := σ₁.stats.totalFailed + 1 } }
      notifyDependents σ₂ taskId

/-- `_on_task_cancelled` (task_manager.py:453-462). -/
def onTaskCancelled (σ : TaskManagerState) (taskId : String) :
    TaskManagerState :=
  let σ₁ := { σ with tasks := updateTask σ.tasks taskId (fun t =>
      { t with state := .CANCELLED }) }
  let σ₂ := { σ₁ with stats := { σ₁.stats with
      totalCancelled := σ₁.stats.totalCancelled + 1 } }
  notifyDependents σ₂ taskId

/-- The admission phase of `_execute_task` (task_manager.py:349-362): the
semaphore permit is acquired, the task is set `RUNNING` unconditionally (no
terminal-state test), the coroutine handle is created, and the
`total_running` gauge is bumped. -/
def executeTaskStart (σ : TaskManagerState) (taskId : String) :
    TaskManagerState :=
  let σ₁ := { σ with tasks := updateTask σ.tasks taskId (fun t =>
      { t with state := .RUNNING, handle := true }) }
  { σ₁ with stats := { σ₁.stats with
      totalRunning := σ₁.stats.totalRunning + 1 } }

/-- The settlement phase of `_execute_task` (task_manager.py:374-385):
dispatch on the awaited outcome, then release the permit and decrement the
`total_running` gauge in the `finally` block. -/
def executeTaskFinish (σ : TaskManagerState) (taskId : String)
    (outcome : RunOutcome) : TaskManagerState :=
  let σ₁ :=
    match outcome with
    | .success => onTaskSuccess σ taskId
    | .failure msg => onTaskError σ taskId msg
    | .cancelled => onTaskCancelled σ taskId
  { σ₁ with stats := { σ₁.stats with
      totalRunning := σ₁.stats.totalRunning - 1 } }

/-- `_execute_task` (task_manager.py:343-386): no-op for an unknown id,
otherwise admission followed by settlement.  Because the scheduler loop
awaits this coroutine inline, the two phases of one dispatch complete
before the next dispatch begins. -/
def executeTask (σ : TaskManagerState) (taskId : String)
    (outcome : RunOutcome) : TaskManagerState :=
  match lookupTask σ.tasks taskId with
  | none => σ
  | some _ => executeTaskFinish (executeTaskStart σ taskId) taskId outcome

/-- `cancel_task` (task_manager.py:495-517): a `RUNNING` task with a live
handle gets a cancellation request (the state change arrives later through
the executor's cancelled branch); a `QUEUED`/`WAITING` task is set
`CANCELLED` directly and counted; anything else returns `False`.  Note: the
queued id is NOT removed from its priority sub-queue, and no dependent
notification happens here. -/
def cancelTask (σ : TaskManagerState) (taskId : String) :
    TaskManagerState × Bool :=
  match lookupTask σ.tasks taskId with
  | none => (σ, false)
  | some t =>
    if t.state = .RUNNING ∧ t.handle then
      ({ σ with tasks := updateTask σ.tasks taskId (fun u =>
          { u with cancelRequested := true }) }, true)
    else if t.state = .QUEUED ∨ t.state = .WAITING then
      let σ₁ := setState σ taskId .CANCELLED
      ({ σ₁ with stats := { σ₁.stats with
          totalCancelled := σ₁.stats.totalCancelled + 1 } }, true)
    else
      (σ, false)

/-- `_check_waiting_tasks` (task_manager.py:480-486): re-check every task
that is still `WAITING`, iterating a snapshot of the table's keys. -/
def checkWaitingTasks (σ : TaskManagerState) : TaskManagerState :=
  recheckGo σ (σ.tasks.map Prod.fst)

/-- `start` (task_manager.py:163-183) restricted to the manager state: set
the running flag and create the semaphore (its size is already recorded in
`maxConcurrentTasks`).  The watchdog side of `start` is modelled with the
watchdog below. -/
def startManager (σ : TaskManagerState) : TaskManagerState :=
  if σ.running then σ else { σ with running := true }

/-- A fresh `TaskManager(max_concurrent_tasks=n)` (task_manager.py:121-161). -/
def initialManager (n : Nat) : TaskManagerState :=
  { maxConcurrentTasks := n }

/-! ### The scheduler loop (task_manager.py:314-341)

One iteration of the `while self._running` body scans the priorities from
highest to lowest; for each non-empty sub-queue it pops one id
(`await asyncio.wait_for(queue.get(), timeout=0.1)`, which succeeds
immediately on a non-empty queue) and then `await`s `_execute_task` on it
inline, so the popped task settles before the scan continues.  After the
sweep it runs `_check_waiting_tasks` and sleeps.

The embedding takes the settlement outcome of each coroutine as a function
of the task id and records every intermediate manager state (one after the
admission phase and one after the settlement phase of each dispatch) so
that trace properties such as the number of simultaneously `RUNNING` tasks
can be stated. -/

/-- Pop the front of the sub-queue for priority `p`, if non-empty. -/
def popQueue (σ : TaskManagerState) (p : TaskPriority) :
    Option (String × TaskManagerState) :=
  match σ.queues p with
  | [] => none
  | id :: rest =>
    some (id, { σ with queues := fun q => if q = p then rest else σ.queues q })

/-- The priority sweep of one scheduler iteration (task_manager.py:319-330),
returning the final state together with the list of intermediate states
visited during each inline `_execute_task` (admission state, then
settlement state; an unknown popped id contributes its unchanged state). -/
def sweepExecGo (outcomes : String → RunOutcome) :
    List TaskPriority → TaskManagerState →
    TaskManagerState × List TaskManagerState
  | [], σ => (σ, [])
  | p :: rest, σ =>
    match popQueue σ p with
    | none => sweepExecGo outcomes rest σ
    | some (id, σ₁) =>
      let states :=
        match lookupTask σ₁.tasks id with
        | none => [σ₁]
        | some _ =>
          let σrun := executeTaskStart σ₁ id
          [σrun, executeTaskFinish σrun id (outcomes id)]
      let σ₂ := executeTask σ₁ id (outcomes id)
      let (σ₃, tr) := sweepExecGo outcomes rest σ₂
      (σ₃, states ++ tr)

/-- One full iteration of the scheduler loop body
(task_manager.py:316-336): the priority sweep followed by
`_check_waiting_tasks`. -/
def schedulerIteration (σ : TaskManagerState) (outcomes : String → RunOutcome) :
    TaskManagerState × List TaskManagerState :=
  let (σ₁, tr) := sweepExecGo outcomes prioritiesDesc σ
  let σ₂ := checkWaitingTasks σ₁
  (σ₂, tr ++ [σ₂])

/-- `n` iterations of the scheduler loop, collecting the visited states. -/
def runScheduler (σ : TaskManagerState) (outcomes : String → RunOutcome) :
    Nat → TaskManagerState × List TaskManagerState
  | 0 => (σ, [])
  | n + 1 =>
    let (σ₁, tr₁) := schedulerIteration σ outcomes
    let (σ₂, tr₂) := runScheduler σ₁ outcomes n
    (σ₂, tr₁ ++ tr₂)

/-- Number of managed tasks currently in `RUNNING`
(`get_tasks_by_state(TaskState.RUNNING)` cardinality, task_manager.py:598). -/
def runningCount (σ : TaskManagerState) : Nat :=
  (σ.tasks.filter (fun p => p.2.state = .RUNNING)).length

/-- Peak `RUNNING` count over a trace of states. -/
def peakRunning (tr : List TaskManagerState) : Nat :=
  (tr.map runningCount).foldl max 0

/-- Number of tasks in a non-terminal state (for the statistics
conservation law of §8 of the spec). -/
def nonTerminalCount (σ : TaskManagerState) : Nat :=
  (σ.tasks.filter (fun p => ¬ p.2.state.isTerminal)).length

/-! ### The pure queue-drain model of dispatch order
(task_manager.py:319-330)

For the dispatch-order claims the queue dimension of the scheduler loop is
isolated: each iteration of the loop body pops the head of EVERY non-empty
sub-queue, one id per priority level, scanning from `CRITICAL` down to
`LOW`.  (Executing the popped tasks does not reorder the queues unless a
retry re-enqueues, which the drain model excludes.) -/

/-- The family of priority sub-queues. -/
def Queues : Type := TaskPriority → List String

/-- The pops performed by one scan of the `for priority in sorted(...)`
loop: the head of each non-empty sub-queue, tagged with its priority, in
descending priority order. -/
def sweepPops (q : Queues) : List (TaskPriority × String) :=
  prioritiesDesc.filterMap (fun p => ((q p).head?).map (fun id => (p, id)))

/-- The queues after one scan: every sub-queue loses its head. -/
def advanceQueues (q : Queues) : Queues :=
  fun p => (q p).tail

/-- Total number of queued ids. -/
def totalQueued (q : Queues) : Nat :=
  (prioritiesDesc.map (fun p => (q p).length)).sum

/-- Whether every sub-queue is empty. -/
def allEmpty (q : Queues) : Bool :=
  prioritiesDesc.all (fun p => (q p).isEmpty)

/-- Repeated scheduler scans until the queues are drained (fuel-bounded):
the full dispatch order of the initially queued ids. -/
def drainPairs : Nat → Queues → List (TaskPriority × String)
  | 0, _ => []
  | n + 1, q =>
    if allEmpty q then []
    else sweepPops q ++ drainPairs n (advanceQueues q)

/-- The claim-C6 reading of priority dispatch for queue family `q`: for any
two queued ids at different priority levels, the higher-priority one occurs
strictly earlier in the drained dispatch order. -/
def HigherPriorityFirst (q : Queues) : Prop :=
  ∀ px ∈ prioritiesDesc, ∀ py ∈ prioritiesDesc,
    px.value > py.value →
    ∀ x ∈ q px, ∀ y ∈ q py,
      ((drainPairs (totalQueued q) q).map Prod.snd).indexOf x <
      ((drainPairs (totalQueued q) q).map Prod.snd).indexOf y

/-! ### The Watchdog (watchdog.py)

Only the pieces the claims need: entries, the timeout counter, the timeout
callback set, and `_handle_timeout`.  A timeout callback receives the entry
id and may act on the TaskManager state (that is what the spec says the
TaskManager's registered callback would do); `_handle_timeout` folds the
registered callbacks over the manager state. -/

/-- `TaskStatus` from watchdog.py:20-27. -/
inductive WdStatus where
  | PENDING
  | RUNNING
  | COMPLETED
  | FAILED
  | TIMEOUT
  | CANCELLED
deriving DecidableEq, Repr

/-- `TaskInfo` from watchdog.py:30-59, restricted to the claim-relevant
fields.  `live` models `is_alive` (`not self.task.done()`);
`cancelRequested` models a delivered `task.cancel(msg)` on the handle. -/
structure WdEntry where
  name : String
  status : WdStatus := .PENDING
  timeout : Option ℚ := none
  live : Bool := true
  cancelRequested : Bool := false

/-- A timeout callback as registered via `add_timeout_callback`
(watchdog.py:237-239): it receives the entry id and may mutate the
TaskManager state (the spec's intended callback cancels the underlying
managed task). -/
def WdCallback : Type := String → TaskManagerState → TaskManagerState

/-- The Watchdog state (watchdog.py:82-105) restricted to the
claim-relevant fields. -/
structure WatchdogState where
  entries : List (String × WdEntry) := []
  totalTimeout : Nat := 0
  timeoutCallbacks : List WdCallback := []
  checkInterval : ℚ := 1
  defaultTimeout : ℚ := 300
  running : Bool := false

/-- `register_task` (watchdog.py:135-172) restricted to the entry table:
store an entry with `status = RUNNING` and `timeout or default_timeout`
(Python truthiness: `None` and `0` both fall back to the default). -/
def registerEntry (w : WatchdogState) (entryId name : String)
    (timeout : Option ℚ) : WatchdogState :=
  let eff : ℚ :=
    match timeout with
    | none => w.defaultTimeout
    | some t => if t = 0 then w.defaultTimeout else t
  { w with entries := w.entries ++
      [(entryId, { name := name, status := .RUNNING, timeout := some eff })] }

/-- Entry lookup (`self._tasks.get(task_id)` in watchdog.py). -/
def lookupEntry : List (String × WdEntry) → String → Option WdEntry
  | [], _ => none
  | (k, v) :: rest, id => if k = id then some v else lookupEntry rest id

/-- In-place mutation of the entry stored under `id`. -/
def updateEntry (es : List (String × WdEntry)) (id : String)
    (f : WdEntry → WdEntry) : List (String × WdEntry) :=
  es.map (fun p => if p.1 = id then (p.1, f p.2) else p)

/-- `_handle_timeout` (watchdog.py:316-332): set the entry status to
`TIMEOUT`, increment the timeout counter, and invoke the registered timeout
callbacks; the watchdog itself does NOT cancel the handle (the final
comment of the function). -/
def handleTimeout (w : WatchdogState) (entryId : String)
    (tm : TaskManagerState) : WatchdogState × TaskManagerState :=
  let w₁ := { w with
    entries := updateEntry w.entries entryId (fun e =>
      { e with status := .TIMEOUT })
    totalTimeout := w.totalTimeout + 1 }
  let tm₁ := w.timeoutCallbacks.foldl (fun acc cb => cb entryId acc) tm
  (w₁, tm₁)

/-- `TaskManager.start` (task_manager.py:163-183) acting on the manager and
its watchdog: set the running flag, create the semaphore, propagate
`watchdog_check_interval`, and start the watchdog.  The source registers NO
callback of any kind with the watchdog here (or anywhere else). -/
def startWithWatchdog (σ : TaskManagerState) (checkInterval : ℚ)
    (w : WatchdogState) : TaskManagerState × WatchdogState :=
  if σ.running then (σ, w)
  else ({ σ with running := true },
        { w with checkInterval := checkInterval, running := true })

/-! ### `wait_for_task` (task_manager.py:519-555)

The polling loop observes the task state at each iteration together with
the elapsed time `time.time() - start_time`.  The deadline test is the
Python truthiness test `if timeout and (time.time() - start_time) > timeout`,
so a timeout of `None` or `0` disables the deadline entirely. -/

/-- Outcome of running the `while not managed_task.is_terminal_state` loop
against a finite schedule of observations. -/
inductive WaitStep where
  | stillPolling
  | timedOut
  | finished (s : TaskState)
deriving DecidableEq, Repr

/-- Python truthiness of the `timeout` argument (`if timeout and ...`):
`None` and `0` are falsy. -/
def timeoutTruthy : Option ℚ → Bool
  | none => false
  | some t => t ≠ 0

/-- The deadline test of task_manager.py:545. -/
def deadlineHit (timeout : Option ℚ) (elapsed : ℚ) : Bool :=
  timeoutTruthy timeout && decide (elapsed > timeout.getD 0)

/-- The polling loop of `wait_for_task` (task_manager.py:543-547) run over
a finite schedule of `(state, elapsed)` observations: stop with the state
at the first terminal observation; raise `asyncio.TimeoutError` when a
non-terminal observation has exceeded a truthy deadline; otherwise keep
polling. -/
def waitPoll (timeout : Option ℚ) : List (TaskState × ℚ) → WaitStep
  | [] => .stillPolling
  | (s, elapsed) :: rest =>
    if s.isTerminal then .finished s
    else if deadlineHit timeout elapsed then .timedOut
    else waitPoll timeout rest

/-! ### Observable-operation alphabet

For the state-invariant claims, a run of the manager is a sequence of the
embedded operations applied from a fresh instance. -/

/-- Config field of the task stored under `id`, if present. -/
def configOf (σ : TaskManagerState) (id : String) : Option TaskConfig :=
  (lookupTask σ.tasks id).map (·.config)

/-- Retry counter of the task stored under `id`, if present. -/
def retryCountOf (σ : TaskManagerState) (id : String) : Option Nat :=
  (lookupTask σ.tasks id).map (·.retryCount)

/-- One operation on the manager state: the public entry points plus the
scheduler-internal steps, each embedded above from its source function. -/
inductive ManagerOp where
  | start
  | submit (now : Nat) (name : Option String) (config : Option TaskConfig)
  | execute (id : String) (outcome : RunOutcome)
  | cancel (id : String)
  | notify (id : String)
  | checkWaiting
deriving Repr

/-- Apply one operation (a failed `submit` leaves the state unchanged). -/
def applyOp (σ : TaskManagerState) : ManagerOp → TaskManagerState
  | .start => startManager σ
  | .submit now name cfg =>
    match submitTask σ now name cfg with
    | .ok (σ', _) => σ'
    | .error _ => σ
  | .execute id outcome => executeTask σ id outcome
  | .cancel id => (cancelTask σ id).1
  | .notify id => notifyDependents σ id
  | .checkWaiting => checkWaitingTasks σ

/-- Run a sequence of operations. -/
def runOps (σ : TaskManagerState) (ops : List ManagerOp) : TaskManagerState :=
  ops.foldl applyOp σ

/-- The per-task retry bound `retry_count ≤ max_retries`. -/
def RetryOK (t : ManagedTask) : Prop :=
  t.retryCount ≤ t.config.maxRetries

/-- The retry bound for every task in a table. -/
def retryInvL (ts : List (String × ManagedTask)) : Prop :=
  ∀ p ∈ ts, RetryOK p.2

/-- The retry bound for every task of the manager. -/
def retryInv (σ : TaskManagerState) : Prop :=
  retryInvL σ.tasks

/-- A state with a completed task `a` and a task `b` waiting on it (used to
instantiate the waiting-task re-evaluation theorem). -/
def waitingSatisfiedState : TaskManagerState :=
  { tasks :=
      [("a", { taskId := "a", name := "A", state := .COMPLETED }),
       ("b", { taskId := "b", name := "B", state := .WAITING,
               config := { dependencies := ["a"] } })]
    running := true }

/-- A state with a running task `t` whose dependent `u` waits on it alone
(used to instantiate the success-notification theorem). -/
def successNotifyState : TaskManagerState :=
  { tasks :=
      [("t", { taskId := "t", name := "T", state := .RUNNING,
               handle := true, dependents := ["u"] }),
       ("u", { taskId := "u", name := "U", state := .WAITING,
               config := { dependencies := ["t"] } })]
    running := true }

/-- A state with one queued task `a` with `max_retries = 0` (used to
instantiate the retry/FAILED-entry theorem). -/
def zeroRetryState : TaskManagerState :=
  { tasks := [("a", { taskId := "a", name := "A" })]
    running := true }

/-- A state with a failed task `dF`, a running task `t2`, and a dependent
`u2` waiting on both with the failed one first in its list (used to
instantiate the cancelled-settlement notification theorem). -/
def cancelNotifyState : TaskManagerState :=
  { tasks :=
      [("dF", { taskId := "dF", name := "DF", state := .FAILED }),
       ("t2", { taskId := "t2", name := "T2", state := .RUNNING,
                handle := true, dependents := ["u2"] }),
       ("u2", { taskId := "u2", name := "U2", state := .WAITING,
                config := { dependencies := ["dF", "t2"] } })]
    running := true }

/-! ## Concrete scenarios

Each scenario is built by running the embedded operations from a fresh
manager, mirroring an execution of the source. -/

/-- Submit with all-default arguments, keeping the resulting state. -/
def submitSimple (σ : TaskManagerState) (now : Nat) : TaskManagerState :=
  match submitTask σ now none none with
  | .ok (σ', _) => σ'
  | .error _ => σ

/-- Submit with an explicit config, keeping the resulting state. -/
def submitWith (σ : TaskManagerState) (now : Nat) (cfg : TaskConfig) :
    TaskManagerState :=
  match submitTask σ now none (some cfg) with
  | .ok (σ', _) => σ'
  | .error _ => σ

/-- Scenario for the concurrency claim: `max_concurrent_tasks = 3`, ten
tasks submitted (ids `task_1_1` … `task_10_10`), all of which settle
successfully (each "sleeps" and returns). -/
def tenTaskScenario : TaskManagerState :=
  (List.range 10).foldl (fun σ i => submitSimple σ (i + 1))
    (startManager (initialManager 3))

/-- The scheduler run of the ten-task scenario: ten loop iterations with
every coroutine settling successfully. -/
def tenTaskRun : TaskManagerState × List TaskManagerState :=
  runScheduler tenTaskScenario (fun _ => .success) 10

/-- Scenario for the absorbing-terminal-state claim: one queued task. -/
def oneQueuedScenario : TaskManagerState :=
  submitSimple (startManager (initialManager 5)) 1

/-- The queued task after `cancel_task`: state `CANCELLED`, id still in the
`NORMAL` sub-queue. -/
def cancelledQueuedScenario : TaskManagerState :=
  (cancelTask oneQueuedScenario "task_1_1").1

/-- One scheduler iteration over the cancelled-but-still-queued task. -/
def cancelledQueuedRun : TaskManagerState × List TaskManagerState :=
  schedulerIteration cancelledQueuedScenario (fun _ => .success)

/-- Scenario for the dependency-failure claim: task `task_1_1` is cancelled
while queued, then `task_2_2` is submitted depending on it (with
`cancel_on_dependency_failure = true`, the default). -/
def cancelledDepScenario : TaskManagerState :=
  submitWith (cancelTask (submitSimple (startManager (initialManager 5)) 1)
      "task_1_1").1
    2 { dependencies := ["task_1_1"] }

/-- Scenario for the statistics claim: `task_1_1` fails terminally
(`max_retries = 0`), then `task_2_2` is submitted depending on it. -/
def failedDepScenario : TaskManagerState :=
  submitWith
    (executeTask (submitSimple (startManager (initialManager 5)) 1)
      "task_1_1" (.failure "boom"))
    2 { dependencies := ["task_1_1"] }

/-- Scenario for the dependent-notification claim: `task_1_1` fails
terminally; `task_2_2` is queued; `task_3_3` is submitted depending on both
(it ends up `WAITING` with the failed dependency first in its list); then
`task_2_2` is cancelled through `cancel_task`. -/
def cancelNoNotifyScenario : TaskManagerState :=
  submitWith
    (submitSimple
      (executeTask (submitSimple (startManager (initialManager 5)) 1)
        "task_1_1" (.failure "boom"))
      2)
    3 { dependencies := ["task_1_1", "task_2_2"] }

/-- `cancel_task("task_2_2")` applied to the scenario above. -/
def cancelNoNotifyAfter : TaskManagerState :=
  (cancelTask cancelNoNotifyScenario "task_2_2").1

/-- Submission naming a dependency id that is not in the task table. -/
def unknownDepSubmit : Except String (TaskManagerState × String) :=
  submitTask (startManager (initialManager 5)) 1 none
    (some { dependencies := ["nope"] })

/-- The manager state produced by `unknownDepSubmit`. -/
def unknownDepState : TaskManagerState :=
  match unknownDepSubmit with
  | .ok (σ', _) => σ'
  | .error _ => initialManager 0

/-- Queue family with two `CRITICAL` ids and one `HIGH` id. -/
def twoLevelQueues : Queues := fun p =>
  match p with
  | .CRITICAL => ["A", "B"]
  | .HIGH => ["C"]
  | _ => []

/-- Watchdog scenario: a fresh manager and a fresh watchdog started
together (`TaskManager.start`), one submitted task admitted into `RUNNING`
whose coroutine sleeps past its timeout, and the matching watchdog entry
(`timeout = 0.3`). -/
def wdStarted : TaskManagerState × WatchdogState :=
  startWithWatchdog (initialManager 5) (1/20) {}

/-- The running task (admission phase of `_execute_task` done, coroutine
not yet settled). -/
def wdRunningManager : TaskManagerState :=
  executeTaskStart (submitSimple wdStarted.1 1) "task_1_1"

/-- The watchdog after registering the running task's handle. -/
def wdRegistered : WatchdogState :=
  registerEntry wdStarted.2 "w1" "TimeoutTask" (some (3/10))

/-- `_handle_timeout` fired on the timed-out entry. -/
def wdAfterTimeout : WatchdogState × TaskManagerState :=
  handleTimeout wdRegistered "w1" wdRunningManager

/-! ## Claim theorems (concrete evaluations) -/

/-- C1: claimed — popping a ready task dispatches it on a new cooperative
worker without the scheduler loop blocking on the concurrency gate, so with
`max_concurrent_tasks = 3` and 10 submitted sleeping tasks the peak
`RUNNING` count is exactly 3.  What the code does: `_scheduler_loop` awaits
`_execute_task` inline (task_manager.py:328), so each dispatched task runs
to settlement before the next pop; over the whole run of the ten-task
scenario the peak `RUNNING` count is 1, not 3, even though every task is
eventually dispatched and completes. -/
theorem scheduler_serializes_execution_peak_running_one :
    tenTaskScenario.maxConcurrentTasks = 3 ∧
    tenTaskScenario.tasks.length = 10 ∧
    (∀ s ∈ tenTaskRun.2, runningCount s ≤ 1) ∧
    peakRunning tenTaskRun.2 = 1 ∧
    (∀ p ∈ tenTaskRun.1.tasks, p.2.state = .COMPLETED) ∧
    (1 : Nat) ≠ 3 := by
  refine ⟨rfl, rfl, by decide, rfl, by decide, by decide⟩

/-- C2: claimed — terminal states are absorbing; in particular dequeuing
the id of a task already in a terminal state never sets it to `RUNNING`.
What the code does: `cancel_task` on a `QUEUED` task sets it `CANCELLED`
without removing its id from the priority sub-queue, and `_execute_task`
sets the state `RUNNING` with no terminal-state check, so the next
scheduler iteration drives the `CANCELLED` task through `RUNNING` to
`COMPLETED`. -/
theorem terminal_cancelled_task_set_running_on_dequeue :
    stateOf cancelledQueuedScenario "task_1_1" = some .CANCELLED ∧
    (cancelTask oneQueuedScenario "task_1_1").2 = true ∧
    TaskState.CANCELLED.isTerminal = true ∧
    "task_1_1" ∈ cancelledQueuedScenario.queues .NORMAL ∧
    cancelledQueuedRun.2.map (fun s => stateOf s "task_1_1") =
      [some .RUNNING, some .COMPLETED, some .COMPLETED] ∧
    stateOf cancelledQueuedRun.1 "task_1_1" = some .COMPLETED := by
  refine ⟨rfl, rfl, rfl, by decide, rfl, rfl⟩

/-- C3 counterexample: the claim says a `WAITING` task with
`cancel_on_dependency_failure = true` whose dependency check finds a
`CANCELLED` dependency transitions to `CANCELLED`.  In the code,
`_check_dependencies` only reacts to `FAILED` (task_manager.py:305): with
`task_1_1` `CANCELLED`, the dependent `task_2_2` stays `WAITING` (with no
error recorded), including after a full `_check_waiting_tasks` sweep. -/
theorem cancelled_dependency_leaves_dependent_waiting :
    stateOf cancelledDepScenario "task_1_1" = some .CANCELLED ∧
    (lookupTask cancelledDepScenario.tasks "task_2_2").map
      (·.config.cancelOnDependencyFailure) = some true ∧
    (lookupTask cancelledDepScenario.tasks "task_2_2").map
      (·.config.dependencies) = some ["task_1_1"] ∧
    stateOf cancelledDepScenario "task_2_2" = some .WAITING ∧
    errorOf cancelledDepScenario "task_2_2" = some none ∧
    stateOf (checkWaitingTasks cancelledDepScenario) "task_2_2" =
      some .WAITING := by
  refine ⟨rfl, rfl, rfl, rfl, rfl, rfl⟩

/-- C4: claimed — the watchdog monitor marks a timed-out entry `TIMEOUT`,
increments the timeout counter and fires the timeout callbacks without
cancelling the handle itself (true in the code), AND the TaskManager has
registered a timeout callback that cancels the running task so the task
reaches `CANCELLED` (false: `TaskManager.start`, task_manager.py:163-183,
registers no callback with the watchdog, and no other call to
`add_timeout_callback` exists in task_manager.py).  After `_handle_timeout`
the entry is `TIMEOUT` with the counter at 1 and no cancellation requested,
while the managed task is still `RUNNING`. -/
theorem watchdog_timeout_reports_but_task_never_cancelled :
    wdStarted.2.timeoutCallbacks = [] ∧
    stateOf wdRunningManager "task_1_1" = some .RUNNING ∧
    (lookupEntry wdAfterTimeout.1.entries "w1").map (·.status) =
      some .TIMEOUT ∧
    wdAfterTimeout.1.totalTimeout = 1 ∧
    (lookupEntry wdAfterTimeout.1.entries "w1").map (·.cancelRequested) =
      some false ∧
    stateOf wdAfterTimeout.2 "task_1_1" = some .RUNNING ∧
    some TaskState.RUNNING ≠ some TaskState.CANCELLED := by
  refine ⟨rfl, rfl, rfl, rfl, rfl, rfl, by decide⟩

/-- C6 counterexample: with `CRITICAL = [A, B]` and `HIGH = [C]` all ready,
the drained dispatch order is `A, C, B` (the loop pops one head per
non-empty sub-queue per sweep, task_manager.py:319-330), so the
higher-priority `B` is dispatched after the lower-priority `C` — refuting
"for any two ready tasks at different priorities the higher-priority one is
dispatched first". -/
theorem priority_dispatch_not_globally_ordered :
    ¬ HigherPriorityFirst twoLevelQueues := by
  intro h
  have h2 := h .CRITICAL (by decide) .HIGH (by decide) (by decide)
    "B" (by decide) "C" (by decide)
  exact absurd h2 (by decide)

/-- C7 counterexample: `task_3_3` is `WAITING` and declares
`["task_1_1", "task_2_2"]`; `task_2_2` transitions to the terminal state
`CANCELLED` through `cancel_task`, but `task_3_3`'s dependency check is not
re-evaluated: it stays `WAITING`, although actually running
`_check_dependencies` on it in the post-state would cancel it (its first
dependency is `FAILED` and `cancel_on_dependency_failure` holds).
`cancel_task` (task_manager.py:495-517) never calls `_notify_dependents`. -/
theorem cancel_task_does_not_reevaluate_dependents :
    stateOf cancelNoNotifyScenario "task_1_1" = some .FAILED ∧
    stateOf cancelNoNotifyScenario "task_3_3" = some .WAITING ∧
    (lookupTask cancelNoNotifyScenario.tasks "task_3_3").map
      (·.config.dependencies) = some ["task_1_1", "task_2_2"] ∧
    (cancelTask cancelNoNotifyScenario "task_2_2").2 = true ∧
    stateOf cancelNoNotifyAfter "task_2_2" = some .CANCELLED ∧
    stateOf cancelNoNotifyAfter "task_3_3" = some .WAITING ∧
    stateOf (checkDependencies cancelNoNotifyAfter "task_3_3").1 "task_3_3" =
      some .CANCELLED := by
  refine ⟨rfl, rfl, rfl, rfl, rfl, rfl, rfl⟩

/-- C8: claimed — `total_submitted = total_completed + total_failed +
total_cancelled + (tasks in non-terminal states)` at every observable
moment, with no task counted twice.  What the code does: submitting
`task_2_2` after its dependency has `FAILED` increments `total_cancelled`
inside `_check_dependencies` but then overwrites the state back to
`WAITING` (task_manager.py:263-267), so the books show 2 submitted against
0+1+1+1 = 3; the next `_check_waiting_tasks` sweep then cancels the same
task a second time, driving `total_cancelled` to 2 for a single task. -/
theorem stats_conservation_violated :
    failedDepScenario.stats.totalSubmitted = 2 ∧
    failedDepScenario.stats.totalCompleted = 0 ∧
    failedDepScenario.stats.totalFailed = 1 ∧
    failedDepScenario.stats.totalCancelled = 1 ∧
    stateOf failedDepScenario "task_2_2" = some .WAITING ∧
    nonTerminalCount failedDepScenario = 1 ∧
    failedDepScenario.stats.totalSubmitted ≠
      failedDepScenario.stats.totalCompleted +
      failedDepScenario.stats.totalFailed +
      failedDepScenario.stats.totalCancelled +
      nonTerminalCount failedDepScenario ∧
    (checkWaitingTasks failedDepScenario).stats.totalCancelled = 2 := by
  refine ⟨rfl, rfl, rfl, rfl, rfl, rfl, by decide, rfl⟩

/-- C9 counterexample: submitting with a dependency id absent from the task
table does NOT fail: `submit_task` returns the new id normally (the only
`raise` is the not-running guard, task_manager.py:238-239), and the task is
left `WAITING` (`_check_dependencies` merely logs a warning and returns
`False` for a missing dependency, task_manager.py:296-298). -/
theorem submit_with_unknown_dependency_raises_nothing :
    lookupTask (startManager (initialManager 5)).tasks "nope" = none ∧
    unknownDepSubmit.toOption.isSome = true ∧
    unknownDepSubmit.toOption.map Prod.snd = some "task_1_1" ∧
    stateOf unknownDepState "task_1_1" = some .WAITING := by
  refine ⟨rfl, rfl, rfl, rfl⟩

/-- C10: `wait_for_task` called with `timeout = 0` never raises the
deadline timeout error: the deadline test `if timeout and elapsed > timeout`
(task_manager.py:545) is falsy for `timeout = 0`, so the polling loop
behaves exactly as with no deadline at all and only stops at a terminal
observation. -/
theorem wait_for_task_zero_timeout_never_deadline :
    (∀ e : ℚ, deadlineHit (some (0 : ℚ)) e = false) ∧
    ∀ obs, waitPoll (some (0 : ℚ)) obs ≠ .timedOut ∧
      waitPoll (some (0 : ℚ)) obs = waitPoll none obs := by
  constructor
  · intro e
    simp [deadlineHit, timeoutTruthy]
  · intro obs
    induction obs with
    | nil => exact ⟨by simp [waitPoll], rfl⟩
    | cons hd tl ih =>
      obtain ⟨o₁, o₂⟩ := ih
      refine ⟨?_, ?_⟩
      · simp only [waitPoll, deadlineHit, timeoutTruthy]
        split
        · simp
        · simpa using o₁
      · simp only [waitPoll, deadlineHit, timeoutTruthy]
        split
        · rfl
        · simpa using o₂

/-! ## Table lemmas -/

theorem lookupTask_updateTask (ts : List (String × ManagedTask)) (id : String)
    (f : ManagedTask → ManagedTask) (x : String) :
    lookupTask (updateTask ts id f) x =
      if x = id then (lookupTask ts id).map f else lookupTask ts x := by
  induction ts with
  | nil => simp [updateTask, lookupTask]
  | cons hd tl ih =>
    obtain ⟨k, v⟩ := hd
    by_cases hk : k = id
    · subst hk
      by_cases hx : x = k
      · subst hx; simp [updateTask, lookupTask]
      · simp [updateTask, lookupTask, hx, Ne.symm hx]
    · by_cases hx : x = k
      · subst hx
        simp [updateTask, lookupTask, hk, Ne.symm hk]
      · simp [updateTask, lookupTask, hk, hx, Ne.symm hx, ih]

theorem lookupTask_insertTask (ts : List (String × ManagedTask)) (id : String)
    (t : ManagedTask) (x : String) :
    lookupTask (insertTask ts id t) x =
      if x = id then some t else lookupTask ts x := by
  induction ts with
  | nil => simp [insertTask, lookupTask, eq_comm]
  | cons hd tl ih =>
    obtain ⟨k, v⟩ := hd
    by_cases hk : k = id
    · subst hk
      by_cases hx : x = k
      · subst hx; simp [insertTask, lookupTask]
      · simp [insertTask, lookupTask, hx, Ne.symm hx]
    · by_cases hx : x = k
      · subst hx
        simp [insertTask, lookupTask, hk, Ne.symm hk]
      · simp [insertTask, lookupTask, hk, hx, Ne.symm hx, ih]

theorem mem_updateTask {ts : List (String × ManagedTask)} {id : String}
    {f : ManagedTask → ManagedTask} {a : String × ManagedTask}
    (h : a ∈ updateTask ts id f) :
    a ∈ ts ∨ ∃ v, lookupTask ts id = some v ∧ a = (id, f v) := by
  induction ts with
  | nil => simp [updateTask] at h
  | cons hd tl ih =>
    obtain ⟨k, v⟩ := hd
    by_cases hk : k = id
    · subst hk
      simp only [updateTask, if_pos rfl] at h
      rcases List.mem_cons.mp h with h' | h'
      · exact Or.inr ⟨v, by simp [lookupTask], h'⟩
      · exact Or.inl (List.mem_cons_of_mem _ h')
    · simp only [updateTask, if_neg hk] at h
      rcases List.mem_cons.mp h with h' | h'
      · exact Or.inl (h' ▸ List.mem_cons_self _ _)
      · rcases ih h' with h'' | ⟨w, hw, ha⟩
        · exact Or.inl (List.mem_cons_of_mem _ h'')
        · exact Or.inr ⟨w, by simpa [lookupTask, hk] using hw, ha⟩

theorem mem_insertTask {ts : List (String × ManagedTask)} {id : String}
    {t : ManagedTask} {a : String × ManagedTask}
    (h : a ∈ insertTask ts id t) :
    a ∈ ts ∨ a = (id, t) := by
  induction ts with
  | nil => simpa [insertTask] using h
  | cons hd tl ih =>
    obtain ⟨k, v⟩ := hd
    by_cases hk : k = id
    · subst hk
      simp only [insertTask, if_pos rfl] at h
      rcases List.mem_cons.mp h with h' | h'
      · exact Or.inr h'
      · exact Or.inl (List.mem_cons_of_mem _ h')
    · simp only [insertTask, if_neg hk] at h
      rcases List.mem_cons.mp h with h' | h'
      · exact Or.inl (h' ▸ List.mem_cons_self _ _)
      · rcases ih h' with h'' | h''
        · exact Or.inl (List.mem_cons_of_mem _ h'')
        · exact Or.inr h''

theorem lookup_some_mem {ts : List (String × ManagedTask)} {x : String}
    {t : ManagedTask} (h : lookupTask ts x = some t) : (x, t) ∈ ts := by
  induction ts with
  | nil => simp [lookupTask] at h
  | cons hd tl ih =>
    obtain ⟨k, v⟩ := hd
    by_cases hk : k = x
    · subst hk
      simp [lookupTask] at h
      subst h
      exact List.mem_cons_self _ _
    · simp only [lookupTask, if_neg hk] at h
      exact List.mem_cons_of_mem _ (ih h)

theorem lookup_some_mem_keys {ts : List (String × ManagedTask)} {x : String}
    {t : ManagedTask} (h : lookupTask ts x = some t) :
    x ∈ ts.map Prod.fst :=
  List.mem_map.mpr ⟨(x, t), lookup_some_mem h, rfl⟩

/-! ## Primitive-operation preservation lemmas -/

theorem register_preserves (σ : TaskManagerState) (a u x : String) :
    stateOf (registerDependent σ a u) x = stateOf σ x ∧
    configOf (registerDependent σ a u) x = configOf σ x ∧
    errorOf (registerDependent σ a u) x = errorOf σ x ∧
    retryCountOf (registerDependent σ a u) x = retryCountOf σ x := by
  refine ⟨?_, ?_, ?_, ?_⟩ <;>
  · simp only [stateOf, configOf, errorOf, retryCountOf, registerDependent,
      lookupTask_updateTask]
    by_cases hx : x = a
    · subst hx
      cases h : lookupTask σ.tasks x <;> simp [h] <;> split <;> rfl
    · simp [hx]

theorem register_queues (σ : TaskManagerState) (a u : String) :
    (registerDependent σ a u).queues = σ.queues := rfl

theorem cancelDep_preserves_ne (σ : TaskManagerState) (tid d x : String)
    (hx : x ≠ tid) :
    stateOf (cancelForDepFailure σ tid d) x = stateOf σ x ∧
    errorOf (cancelForDepFailure σ tid d) x = errorOf σ x := by
  constructor <;>
  · simp only [stateOf, errorOf, cancelForDepFailure, lookupTask_updateTask]
    simp [hx]

theorem cancelDep_config (σ : TaskManagerState) (tid d x : String) :
    configOf (cancelForDepFailure σ tid d) x = configOf σ x := by
  simp only [configOf, cancelForDepFailure, lookupTask_updateTask]
  by_cases hx : x = tid
  · subst hx
    cases h : lookupTask σ.tasks x <;> simp [h]
  · simp [hx]

theorem cancelDep_self (σ : TaskManagerState) (tid d : String)
    {t : ManagedTask} (h : lookupTask σ.tasks tid = some t) :
    stateOf (cancelForDepFailure σ tid d) tid = some .CANCELLED ∧
    errorOf (cancelForDepFailure σ tid d) tid =
      some (some ("依赖任务失败: " ++ d)) := by
  constructor <;>
  · simp only [stateOf, errorOf, cancelForDepFailure, lookupTask_updateTask]
    simp [h]

theorem cancelDep_queues (σ : TaskManagerState) (tid d : String) :
    (cancelForDepFailure σ tid d).queues = σ.queues := rfl

theorem setState_preserves (σ : TaskManagerState) (id : String)
    (s : TaskState) (x : String) :
    configOf (setState σ id s) x = configOf σ x ∧
    errorOf (setState σ id s) x = errorOf σ x ∧
    retryCountOf (setState σ id s) x = retryCountOf σ x := by
  refine ⟨?_, ?_, ?_⟩ <;>
  · simp only [configOf, errorOf, retryCountOf, setState, lookupTask_updateTask]
    by_cases hx : x = id
    · subst hx
      cases h : lookupTask σ.tasks x <;> simp [h]
    · simp [hx]

theorem stateOf_setState (σ : TaskManagerState) (id : String) (s : TaskState)
    (x : String) :
    stateOf (setState σ id s) x =
      if x = id then (stateOf σ x).map (fun _ => s) else stateOf σ x := by
  simp only [stateOf, setState, lookupTask_updateTask]
  by_cases hx : x = id
  · subst hx
    cases h : lookupTask σ.tasks x <;> simp [h]
  · simp [hx]

theorem setState_queues (σ : TaskManagerState) (id : String) (s : TaskState) :
    (setState σ id s).queues = σ.queues := rfl

theorem tasks_enqueueTask (σ : TaskManagerState) (u : String) :
    (enqueueTask σ u).tasks = σ.tasks := by
  unfold enqueueTask
  cases h : lookupTask σ.tasks u <;> rfl

theorem enqueue_preserves (σ : TaskManagerState) (u x : String) :
    stateOf (enqueueTask σ u) x = stateOf σ x ∧
    configOf (enqueueTask σ u) x = configOf σ x ∧
    errorOf (enqueueTask σ u) x = errorOf σ x ∧
    retryCountOf (enqueueTask σ u) x = retryCountOf σ x := by
  refine ⟨?_, ?_, ?_, ?_⟩ <;>
    simp [stateOf, configOf, errorOf, retryCountOf, tasks_enqueueTask]

theorem queues_enqueueTask_self (σ : TaskManagerState) (u : String)
    {t : ManagedTask} (h : lookupTask σ.tasks u = some t) :
    (enqueueTask σ u).queues t.config.priority =
      σ.queues t.config.priority ++ [u] := by
  simp [enqueueTask, h]

theorem queues_enqueueTask_extend (σ : TaskManagerState) (u : String)
    (p : TaskPriority) :
    ∃ ext, (enqueueTask σ u).queues p = σ.queues p ++ ext := by
  unfold enqueueTask
  cases h : lookupTask σ.tasks u with
  | none => exact ⟨[], by simp⟩
  | some t =>
    by_cases hp : p = t.config.priority
    · exact ⟨[u], by simp [hp]⟩
    · exact ⟨[], by simp [hp]⟩

theorem stateOf_some_iff {σ : TaskManagerState} {x : String} {s : TaskState} :
    stateOf σ x = some s ↔
      ∃ t, lookupTask σ.tasks x = some t ∧ t.state = s := by
  simp [stateOf, Option.map_eq_some']

theorem stateOf_isSome_lookup {σ : TaskManagerState} {x : String}
    (h : (lookupTask σ.tasks x).isSome) :
    ∃ t, lookupTask σ.tasks x = some t :=
  Option.isSome_iff_exists.mp h

/-! ## Dependency-check lemmas -/

theorem checkDepsGo_cons_none {σ : TaskManagerState} {tid d : String}
    {flag : Bool} {rest : List String}
    (h : lookupTask σ.tasks d = none) :
    checkDepsGo σ tid flag (d :: rest) = (σ, false) := by
  simp [checkDepsGo, h]

theorem checkDepsGo_cons_completed {σ : TaskManagerState} {tid d : String}
    {flag : Bool} {rest : List String} {dep : ManagedTask}
    (h : lookupTask σ.tasks d = some dep) (hc : dep.state = .COMPLETED) :
    checkDepsGo σ tid flag (d :: rest) =
      checkDepsGo (registerDependent σ d tid) tid flag rest := by
  simp [checkDepsGo, h, hc]

theorem checkDepsGo_cons_failed {σ : TaskManagerState} {tid d : String}
    {flag : Bool} {rest : List String} {dep : ManagedTask}
    (h : lookupTask σ.tasks d = some dep) (hc : dep.state ≠ .COMPLETED)
    (hf : dep.state = .FAILED ∧ flag = true) :
    checkDepsGo σ tid flag (d :: rest) =
      (cancelForDepFailure (registerDependent σ d tid) tid d, false) := by
  simp [checkDepsGo, h, hc, hf.1, hf.2]

theorem checkDepsGo_cons_blocked {σ : TaskManagerState} {tid d : String}
    {flag : Bool} {rest : List String} {dep : ManagedTask}
    (h : lookupTask σ.tasks d = some dep) (hc : dep.state ≠ .COMPLETED)
    (hf : ¬ (dep.state = .FAILED ∧ flag = true)) :
    checkDepsGo σ tid flag (d :: rest) =
      (registerDependent σ d tid, false) := by
  simp only [checkDepsGo, h]
  rw [if_neg hc, if_neg hf]

theorem checkDepsGo_queues (tid : String) (flag : Bool) :
    ∀ (ds : List String) (σ : TaskManagerState),
      (checkDepsGo σ tid flag ds).1.queues = σ.queues := by
  intro ds
  induction ds with
  | nil => intro σ; rfl
  | cons d rest ih =>
    intro σ
    cases h : lookupTask σ.tasks d with
    | none => rw [checkDepsGo_cons_none h]
    | some dep =>
      by_cases hc : dep.state = .COMPLETED
      · rw [checkDepsGo_cons_completed h hc, ih]
        rfl
      · by_cases hf : dep.state = .FAILED ∧ flag = true
        · rw [checkDepsGo_cons_failed h hc hf]
          rfl
        · rw [checkDepsGo_cons_blocked h hc hf]
          rfl

theorem checkDepsGo_config (tid : String) (flag : Bool) :
    ∀ (ds : List String) (σ : TaskManagerState) (x : String),
      configOf (checkDepsGo σ tid flag ds).1 x = configOf σ x := by
  intro ds
  induction ds with
  | nil => intro σ x; rfl
  | cons d rest ih =>
    intro σ x
    cases h : lookupTask σ.tasks d with
    | none => rw [checkDepsGo_cons_none h]
    | some dep =>
      by_cases hc : dep.state = .COMPLETED
      · rw [checkDepsGo_cons_completed h hc, ih,
          (register_preserves σ d tid x).2.1]
      · by_cases hf : dep.state = .FAILED ∧ flag = true
        · rw [checkDepsGo_cons_failed h hc hf]
          rw [cancelDep_config, (register_preserves σ d tid x).2.1]
        · rw [checkDepsGo_cons_blocked h hc hf]
          exact (register_preserves σ d tid x).2.1

theorem checkDepsGo_preserves_ne (tid : String) (flag : Bool) :
    ∀ (ds : List String) (σ : TaskManagerState) (x : String), x ≠ tid →
      stateOf (checkDepsGo σ tid flag ds).1 x = stateOf σ x ∧
      errorOf (checkDepsGo σ tid flag ds).1 x = errorOf σ x := by
  intro ds
  induction ds with
  | nil => intro σ x _; exact ⟨rfl, rfl⟩
  | cons d rest ih =>
    intro σ x hx
    cases h : lookupTask σ.tasks d with
    | none => rw [checkDepsGo_cons_none h]; exact ⟨rfl, rfl⟩
    | some dep =>
      by_cases hc : dep.state = .COMPLETED
      · rw [checkDepsGo_cons_completed h hc]
        obtain ⟨ih₁, ih₂⟩ := ih (registerDependent σ d tid) x hx
        exact ⟨ih₁.trans (register_preserves σ d tid x).1,
               ih₂.trans (register_preserves σ d tid x).2.2.1⟩
      · by_cases hf : dep.state = .FAILED ∧ flag = true
        · rw [checkDepsGo_cons_failed h hc hf]
          obtain ⟨c₁, c₂⟩ :=
            cancelDep_preserves_ne (registerDependent σ d tid) tid d x hx
          exact ⟨c₁.trans (register_preserves σ d tid x).1,
                 c₂.trans (register_preserves σ d tid x).2.2.1⟩
        · rw [checkDepsGo_cons_blocked h hc hf]
          exact ⟨(register_preserves σ d tid x).1,
                 (register_preserves σ d tid x).2.2.1⟩

theorem checkDepsGo_true_states (tid : String) (flag : Bool) :
    ∀ (ds : List String) (σ : TaskManagerState),
      (checkDepsGo σ tid flag ds).2 = true →
      ∀ x, stateOf (checkDepsGo σ tid flag ds).1 x = stateOf σ x := by
  intro ds
  induction ds with
  | nil => intro σ _ x; rfl
  | cons d rest ih =>
    intro σ htrue x
    cases h : lookupTask σ.tasks d with
    | none => rw [checkDepsGo_cons_none h] at htrue; cases htrue
    | some dep =>
      by_cases hc : dep.state = .COMPLETED
      · rw [checkDepsGo_cons_completed h hc] at htrue ⊢
        exact (ih _ htrue x).trans (register_preserves σ d tid x).1
      · by_cases hf : dep.state = .FAILED ∧ flag = true
        · rw [checkDepsGo_cons_failed h hc hf] at htrue; cases htrue
        · rw [checkDepsGo_cons_blocked h hc hf] at htrue; cases htrue

theorem checkDepsGo_true_completed (tid : String) (flag : Bool) :
    ∀ (ds : List String) (σ : TaskManagerState),
      (checkDepsGo σ tid flag ds).2 = true →
      ∀ d ∈ ds, stateOf σ d = some .COMPLETED := by
  intro ds
  induction ds with
  | nil => intro σ _ d hd; simp at hd
  | cons d rest ih =>
    intro σ htrue e he
    cases h : lookupTask σ.tasks d with
    | none => rw [checkDepsGo_cons_none h] at htrue; cases htrue
    | some dep =>
      by_cases hc : dep.state = .COMPLETED
      · rw [checkDepsGo_cons_completed h hc] at htrue
        rcases List.mem_cons.mp he with he | he
        · subst he
          exact stateOf_some_iff.mpr ⟨dep, h, hc⟩
        · have := ih (registerDependent σ d tid) htrue e he
          exact ((register_preserves σ d tid e).1).symm.trans this
      · by_cases hf : dep.state = .FAILED ∧ flag = true
        · rw [checkDepsGo_cons_failed h hc hf] at htrue; cases htrue
        · rw [checkDepsGo_cons_blocked h hc hf] at htrue; cases htrue

theorem checkDepsGo_all_completed_true (tid : String) (flag : Bool) :
    ∀ (ds : List String) (σ : TaskManagerState),
      (∀ d ∈ ds, stateOf σ d = some .COMPLETED) →
      (checkDepsGo σ tid flag ds).2 = true := by
  intro ds
  induction ds with
  | nil => intro σ _; rfl
  | cons d rest ih =>
    intro σ hall
    obtain ⟨dep, h, hs⟩ := stateOf_some_iff.mp
      (hall d (List.mem_cons_self _ _))
    rw [checkDepsGo_cons_completed h hs]
    refine ih (registerDependent σ d tid) (fun e he => ?_)
    rw [(register_preserves σ d tid e).1]
    exact hall e (List.mem_cons_of_mem _ he)

theorem lookup_isSome_of_stateOf {σ σ' : TaskManagerState} {x : String}
    (hpres : stateOf σ' x = stateOf σ x)
    (h : (lookupTask σ.tasks x).isSome) :
    ∃ t, lookupTask σ'.tasks x = some t := by
  obtain ⟨t, ht⟩ := stateOf_isSome_lookup h
  have : stateOf σ' x = some t.state := by
    rw [hpres]; simp [stateOf, ht]
  obtain ⟨t', ht', _⟩ := stateOf_some_iff.mp this
  exact ⟨t', ht'⟩

theorem checkDepsGo_first_failed (tid d : String) (rest : List String) :
    ∀ (pre : List String) (σ : TaskManagerState),
      (∀ p ∈ pre, stateOf σ p = some .COMPLETED) →
      stateOf σ d = some .FAILED →
      (lookupTask σ.tasks tid).isSome →
      (checkDepsGo σ tid true (pre ++ d :: rest)).2 = false ∧
      stateOf (checkDepsGo σ tid true (pre ++ d :: rest)).1 tid =
        some .CANCELLED ∧
      errorOf (checkDepsGo σ tid true (pre ++ d :: rest)).1 tid =
        some (some ("依赖任务失败: " ++ d)) := by
  intro pre
  induction pre with
  | nil =>
    intro σ _ hd htid
    obtain ⟨dt, hld, hds⟩ := stateOf_some_iff.mp hd
    have hc : dt.state ≠ .COMPLETED := by rw [hds]; intro hcon; cases hcon
    rw [List.nil_append, checkDepsGo_cons_failed hld hc ⟨hds, rfl⟩]
    obtain ⟨t', ht'⟩ := lookup_isSome_of_stateOf
      (register_preserves σ d tid tid).1 htid
    obtain ⟨s₁, s₂⟩ := cancelDep_self (registerDependent σ d tid) tid d ht'
    exact ⟨rfl, s₁, s₂⟩
  | cons p pre' ih =>
    intro σ hpre hd htid
    obtain ⟨pt, hlp, hps⟩ := stateOf_some_iff.mp
      (hpre p (List.mem_cons_self _ _))
    rw [List.cons_append, checkDepsGo_cons_completed hlp hps]
    refine ih (registerDependent σ p tid) (fun e he => ?_) ?_ ?_
    · rw [(register_preserves σ p tid e).1]
      exact hpre e (List.mem_cons_of_mem _ he)
    · rw [(register_preserves σ p tid d).1]
      exact hd
    · obtain ⟨t', ht'⟩ := lookup_isSome_of_stateOf
        (register_preserves σ p tid tid).1 htid
      rw [ht']
      rfl

theorem checkDependencies_eq {σ : TaskManagerState} {tid : String}
    {t : ManagedTask} (hl : lookupTask σ.tasks tid = some t) :
    checkDependencies σ tid =
      checkDepsGo σ tid t.config.cancelOnDependencyFailure
        t.config.dependencies := by
  simp [checkDependencies, hl]

/-- C3 (amended): for a task T with `cancel_on_dependency_failure = true`,
when the dependency check walks T's declared dependency list and the first
non-`COMPLETED` dependency it meets is in state `FAILED` (only `FAILED`: a
`CANCELLED` dependency leaves T `WAITING`, see the counterexample), T
transitions directly to `CANCELLED` with the error "依赖任务失败: D"
recording the failed dependency D (task_manager.py:304-310). -/
theorem failed_dependency_cancels_dependent
    (σ : TaskManagerState) (tid : String) (t : ManagedTask)
    (pre : List String) (d : String) (rest : List String)
    (hl : lookupTask σ.tasks tid = some t)
    (hflag : t.config.cancelOnDependencyFailure = true)
    (hdeps : t.config.dependencies = pre ++ d :: rest)
    (hpre : ∀ p ∈ pre, stateOf σ p = some .COMPLETED)
    (hd : stateOf σ d = some .FAILED) :
    (checkDependencies σ tid).2 = false ∧
    stateOf (checkDependencies σ tid).1 tid = some .CANCELLED ∧
    errorOf (checkDependencies σ tid).1 tid =
      some (some ("依赖任务失败: " ++ d)) := by
  rw [checkDependencies_eq hl, hflag, hdeps]
  exact checkDepsGo_first_failed tid d rest pre σ hpre hd (by rw [hl]; rfl)

/-- Witness for the amended C3 theorem: in the concrete scenario where
`task_1_1` has `FAILED`, the dependency check cancels `task_2_2` and
records the failed dependency. -/
theorem failed_dependency_cancels_dependent_witness :
    (checkDependencies failedDepScenario "task_2_2").2 = false ∧
    stateOf (checkDependencies failedDepScenario "task_2_2").1 "task_2_2" =
      some .CANCELLED ∧
    errorOf (checkDependencies failedDepScenario "task_2_2").1 "task_2_2" =
      some (some ("依赖任务失败: " ++ "task_1_1")) :=
  failed_dependency_cancels_dependent failedDepScenario "task_2_2" _
    [] "task_1_1" [] rfl rfl rfl (by simp) rfl

theorem submitTask_not_running {σ : TaskManagerState} {now : Nat}
    {name : Option String} {cfg : Option TaskConfig}
    (hr : σ.running = false) :
    submitTask σ now name cfg =
      .error "TaskManager 未运行，请先调用 start()" := by
  simp [submitTask, hr]

theorem submitTask_running_deps {σ : TaskManagerState} {now : Nat}
    {name : Option String} {cfg : Option TaskConfig}
    (hr : σ.running = true) (hne : (cfg.getD {}).dependencies ≠ []) :
    submitTask σ now name cfg =
      (match checkDependencies (submitInserted σ now name cfg)
          (makeTaskId (σ.taskCounter + 1) now) with
       | (σ₂, true) =>
         .ok (enqueueTask
           (setState σ₂ (makeTaskId (σ.taskCounter + 1) now) .QUEUED)
           (makeTaskId (σ.taskCounter + 1) now),
           makeTaskId (σ.taskCounter + 1) now)
       | (σ₂, false) =>
         .ok (setState σ₂ (makeTaskId (σ.taskCounter + 1) now) .WAITING,
           makeTaskId (σ.taskCounter + 1) now)) := by
  simp [submitTask, hr, hne]

/-- C9 (amended): `submit_task` fails in exactly ONE situation — the
manager is not running.  Naming an unknown dependency id does not raise:
the submission returns the fresh id normally and the task is left
`WAITING` (the dependency check merely logs a warning and reports the
dependencies unsatisfied, task_manager.py:296-298). -/
theorem submit_error_iff_not_running :
    (∀ (σ : TaskManagerState) (now : Nat) (name : Option String)
        (cfg : Option TaskConfig),
      (∃ e, submitTask σ now name cfg = .error e) ↔ σ.running = false) ∧
    (∀ (σ : TaskManagerState) (now : Nat) (name : Option String)
        (cfg : Option TaskConfig) (d : String),
      σ.running = true → d ∈ (cfg.getD {}).dependencies →
      lookupTask σ.tasks d = none →
      ∃ σ', submitTask σ now name cfg =
          .ok (σ', makeTaskId (σ.taskCounter + 1) now) ∧
        stateOf σ' (makeTaskId (σ.taskCounter + 1) now) = some .WAITING) := by
  constructor
  · intro σ now name cfg
    constructor
    · rintro ⟨e, he⟩
      by_cases hr : σ.running = true
      · exfalso
        have hnn : ¬ ¬ σ.running = true := by simp [hr]
        unfold submitTask at he
        rw [if_neg hnn] at he
        dsimp only at he
        split at he
        · split at he <;> cases he
        · cases he
      · simpa using hr
    · intro hr
      exact ⟨_, submitTask_not_running hr⟩
  · intro σ now name cfg d hr hd hnone
    have hne : (cfg.getD {}).dependencies ≠ [] := by
      intro h0
      rw [h0] at hd
      simp at hd
    have hl1 : lookupTask (submitInserted σ now name cfg).tasks
        (makeTaskId (σ.taskCounter + 1) now) =
        some (newSubmittedTask σ now name cfg) := by
      simp [submitInserted, lookupTask_insertTask]
    rcases hres : checkDependencies (submitInserted σ now name cfg)
        (makeTaskId (σ.taskCounter + 1) now) with ⟨σ₂, b⟩
    cases b
    · -- check failed: the task is left WAITING
      refine ⟨setState σ₂ (makeTaskId (σ.taskCounter + 1) now) .WAITING, ?_, ?_⟩
      · rw [submitTask_running_deps hr hne, hres]
      · have hσ₂ : σ₂ = (checkDependencies (submitInserted σ now name cfg)
            (makeTaskId (σ.taskCounter + 1) now)).1 := by rw [hres]
        have hconf : configOf σ₂ (makeTaskId (σ.taskCounter + 1) now) =
            some (newSubmittedTask σ now name cfg).config := by
          rw [hσ₂, checkDependencies_eq hl1, checkDepsGo_config]
          simp [configOf, hl1]
        have hpres : (lookupTask σ₂.tasks
            (makeTaskId (σ.taskCounter + 1) now)).isSome := by
          simp only [configOf] at hconf
          cases h2 : lookupTask σ₂.tasks (makeTaskId (σ.taskCounter + 1) now) with
          | none => rw [h2] at hconf; simp at hconf
          | some _ => simp
        obtain ⟨t', ht'⟩ := stateOf_isSome_lookup hpres
        rw [stateOf_setState]
        simp [stateOf, ht']
    · -- check passed: impossible, d is unknown
      exfalso
      have h2 : (checkDepsGo (submitInserted σ now name cfg)
          (makeTaskId (σ.taskCounter + 1) now)
          (newSubmittedTask σ now name cfg).config.cancelOnDependencyFailure
          (newSubmittedTask σ now name cfg).config.dependencies).2 = true := by
        rw [← checkDependencies_eq hl1, hres]
      have hcomp := checkDepsGo_true_completed _ _ _ _ h2 d
        (by
          show d ∈ (newSubmittedTask σ now name cfg).config.dependencies
          simpa [newSubmittedTask] using hd)
      rw [stateOf_some_iff] at hcomp
      obtain ⟨t', ht', hst⟩ := hcomp
      by_cases hdn : d = makeTaskId (σ.taskCounter + 1) now
      · subst hdn
        rw [hl1] at ht'
        cases ht'
        simp [newSubmittedTask] at hst
      · rw [show lookupTask (submitInserted σ now name cfg).tasks d =
            lookupTask σ.tasks d by
              simp [submitInserted, lookupTask_insertTask, hdn],
          hnone] at ht'
        cases ht'

/-- Witness for the amended C9 theorem: a fresh (not-running) manager
refuses submission, and a running manager accepts a submission naming the
unknown dependency `"nope"`, leaving the task `WAITING`. -/
theorem submit_error_iff_not_running_witness :
    ((∃ e, submitTask (initialManager 5) 1 none none = .error e) ↔
      (initialManager 5).running = false) ∧
    ∃ σ', submitTask (startManager (initialManager 5)) 1 none
        (some { dependencies := ["nope"] }) = .ok (σ', "task_1_1") ∧
      stateOf σ' "task_1_1" = some .WAITING :=
  ⟨submit_error_iff_not_running.1 (initialManager 5) 1 none none,
   submit_error_iff_not_running.2 (startManager (initialManager 5)) 1 none
     (some { dependencies := ["nope"] }) "nope" rfl (by simp) rfl⟩

/-! ## Dispatch-order lemmas -/

theorem filterMap_heads_pairwise (q : Queues) :
    ∀ l : List TaskPriority,
      l.Pairwise (fun a b => b.value < a.value) →
      List.Pairwise (fun a b => b.1.value < a.1.value)
        (l.filterMap (fun pr => ((q pr).head?).map (fun id => (pr, id)))) := by
  intro l
  induction l with
  | nil => intro _; simp
  | cons pr l' ih =>
    intro hp
    rw [List.pairwise_cons] at hp
    obtain ⟨h1, h2⟩ := hp
    simp only [List.filterMap_cons]
    cases hh : (q pr).head? with
    | none => exact ih h2
    | some a =>
      simp only [Option.map_some']
      refine List.Pairwise.cons (fun y hy => ?_) (ih h2)
      obtain ⟨b, hb, hfb⟩ := List.mem_filterMap.mp hy
      obtain ⟨id, _, hid⟩ := Option.map_eq_some'.mp hfb
      have : y.1 = b := by rw [← hid]
      rw [this]
      exact h1 b hb

theorem filter_filterMap_not_mem (q : Queues) (p : TaskPriority) :
    ∀ l : List TaskPriority, p ∉ l →
      (l.filterMap (fun pr => ((q pr).head?).map (fun id => (pr, id)))).filter
        (fun a => a.1 = p) = [] := by
  intro l
  induction l with
  | nil => intro _; simp
  | cons pr l' ih =>
    intro hnm
    have hne : pr ≠ p := fun h => hnm (h ▸ List.mem_cons_self _ _)
    have hnm' : p ∉ l' := fun h => hnm (List.mem_cons_of_mem _ h)
    simp only [List.filterMap_cons]
    cases hh : (q pr).head? with
    | none => exact ih hnm'
    | some a =>
      simp only [Option.map_some']
      rw [List.filter_cons]
      simp only [decide_eq_true_eq]
      rw [if_neg (by simpa using hne)]
      exact ih hnm'

theorem filter_filterMap_mem (q : Queues) (p : TaskPriority) :
    ∀ l : List TaskPriority, l.Nodup → p ∈ l →
      ((l.filterMap (fun pr => ((q pr).head?).map (fun id => (pr, id)))).filter
        (fun a => a.1 = p)).map Prod.snd = ((q p).head?).toList := by
  intro l
  induction l with
  | nil => intro _ hm; simp at hm
  | cons pr l' ih =>
    intro hnd hm
    rw [List.nodup_cons] at hnd
    obtain ⟨hpr, hnd'⟩ := hnd
    rcases List.mem_cons.mp hm with hm | hm
    · subst hm
      cases hh : (q p).head? with
      | none =>
        simp [List.filterMap_cons, hh, filter_filterMap_not_mem q p l' hpr]
      | some a =>
        simp [List.filterMap_cons, hh, filter_filterMap_not_mem q p l' hpr]
    · have hne : pr ≠ p := fun h => hpr (h ▸ hm)
      cases hh : (q pr).head? with
      | none => simpa [List.filterMap_cons, hh] using ih hnd' hm
      | some a => simpa [List.filterMap_cons, hh, hne] using ih hnd' hm

theorem allEmpty_queue_nil {q : Queues} (hE : allEmpty q = true)
    (p : TaskPriority) : q p = [] := by
  have := List.all_eq_true.mp hE p (by cases p <;> simp [prioritiesDesc])
  simpa using this

theorem totalQueued_advance_lt {q : Queues} (hE : ¬ allEmpty q = true) :
    totalQueued (advanceQueues q) < totalQueued q := by
  have hone : 0 < (q .CRITICAL).length ∨ 0 < (q .HIGH).length ∨
      0 < (q .NORMAL).length ∨ 0 < (q .LOW).length := by
    by_contra hcon
    push_neg at hcon
    obtain ⟨h1, h2, h3, h4⟩ := hcon
    refine hE (List.all_eq_true.mpr (fun p hp => ?_))
    have hp0 : (q p).length = 0 := by cases p <;> omega
    simp [List.isEmpty_iff, List.length_eq_zero.mp hp0]
  simp only [totalQueued, prioritiesDesc, advanceQueues, List.map_cons,
    List.map_nil, List.sum_cons, List.sum_nil, List.length_tail]
  rcases hone with h | h | h | h <;> omega

theorem drainPairs_fifo (p : TaskPriority) :
    ∀ (n : Nat) (q : Queues), totalQueued q ≤ n →
      ((drainPairs n q).filter (fun a => a.1 = p)).map Prod.snd = q p := by
  intro n
  induction n with
  | zero =>
    intro q hq
    have hp0 : (q p).length = 0 := by
      simp only [totalQueued, prioritiesDesc, List.map_cons, List.map_nil,
        List.sum_cons, List.sum_nil, Nat.le_zero] at hq
      cases p <;> omega
    rw [List.length_eq_zero.mp hp0]
    simp [drainPairs]
  | succ n ih =>
    intro q hq
    by_cases hE : allEmpty q = true
    · rw [allEmpty_queue_nil hE p]
      simp [drainPairs, hE]
    · have hdrain : drainPairs (n + 1) q =
          sweepPops q ++ drainPairs n (advanceQueues q) := by
        simp [drainPairs, hE]
      rw [hdrain, List.filter_append, List.map_append]
      have hq' : totalQueued (advanceQueues q) ≤ n := by
        have := totalQueued_advance_lt hE
        omega
      rw [ih (advanceQueues q) hq']
      have hsweep := filter_filterMap_mem q p prioritiesDesc
        (by simp [prioritiesDesc]) (by cases p <;> simp [prioritiesDesc])
      rw [show sweepPops q =
          prioritiesDesc.filterMap
            (fun pr => ((q pr).head?).map (fun id => (pr, id))) from rfl,
        hsweep]
      show ((q p).head?).toList ++ (advanceQueues q) p = q p
      cases hqp : q p <;> simp [advanceQueues, hqp]

/-- C6 (amended): each scheduler sweep scans the priorities from `CRITICAL`
down to `LOW` and pops the head of EVERY non-empty sub-queue — one id per
level per sweep — so the pops of a single sweep are in strictly descending
priority order, and across the whole drain the ids dispatched at one
priority level are exactly that level's sub-queue in strict FIFO
submission order.  (The original claim's global cross-priority ordering is
refuted by the counterexample.) -/
theorem sweep_priority_descending_and_fifo_within_level :
    (∀ q : Queues, List.Pairwise (fun a b => b.1.value < a.1.value)
      (sweepPops q)) ∧
    (∀ (q : Queues) (p : TaskPriority) (n : Nat), totalQueued q ≤ n →
      ((drainPairs n q).filter (fun a => a.1 = p)).map Prod.snd = q p) := by
  constructor
  · intro q
    exact filterMap_heads_pairwise q prioritiesDesc (by decide)
  · intro q p n hq
    exact drainPairs_fifo p n q hq

/-- Witness for the amended C6 theorem at the two-level queue family. -/
theorem sweep_priority_descending_and_fifo_within_level_witness :
    List.Pairwise (fun a b => b.1.value < a.1.value)
      (sweepPops twoLevelQueues) ∧
    ((drainPairs 3 twoLevelQueues).filter
      (fun a => a.1 = TaskPriority.CRITICAL)).map Prod.snd =
      twoLevelQueues .CRITICAL :=
  ⟨sweep_priority_descending_and_fifo_within_level.1 twoLevelQueues,
   sweep_priority_descending_and_fifo_within_level.2 twoLevelQueues
     .CRITICAL 3 (by decide)⟩

/-! ## Re-check (waiting-task / dependent) lemmas -/

theorem recheckTask_not_found {σ : TaskManagerState} {id : String}
    (h : lookupTask σ.tasks id = none) : recheckTask σ id = σ := by
  simp [recheckTask, h]

theorem recheckTask_not_waiting {σ : TaskManagerState} {id : String}
    {t : ManagedTask} (h : lookupTask σ.tasks id = some t)
    (hs : t.state ≠ .WAITING) : recheckTask σ id = σ := by
  simp [recheckTask, h, hs]

theorem recheckTask_check_true {σ σ₂ : TaskManagerState} {id : String}
    {t : ManagedTask} (h : lookupTask σ.tasks id = some t)
    (hs : t.state = .WAITING) (hc : checkDependencies σ id = (σ₂, true)) :
    recheckTask σ id = enqueueTask (setState σ₂ id .QUEUED) id := by
  simp [recheckTask, h, hs, hc]

theorem recheckTask_check_false {σ σ₂ : TaskManagerState} {id : String}
    {t : ManagedTask} (h : lookupTask σ.tasks id = some t)
    (hs : t.state = .WAITING) (hc : checkDependencies σ id = (σ₂, false)) :
    recheckTask σ id = σ₂ := by
  simp [recheckTask, h, hs, hc]

theorem checkDependencies_queues (σ : TaskManagerState) (id : String) :
    (checkDependencies σ id).1.queues = σ.queues := by
  unfold checkDependencies
  cases h : lookupTask σ.tasks id with
  | none => rfl
  | some t => exact checkDepsGo_queues id _ _ σ

theorem checkDependencies_config (σ : TaskManagerState) (id x : String) :
    configOf (checkDependencies σ id).1 x = configOf σ x := by
  unfold checkDependencies
  cases h : lookupTask σ.tasks id with
  | none => rfl
  | some t => exact checkDepsGo_config id _ _ σ x

theorem recheckTask_state_ne (σ : TaskManagerState) (id x : String)
    (hx : x ≠ id) : stateOf (recheckTask σ id) x = stateOf σ x := by
  cases h : lookupTask σ.tasks id with
  | none => rw [recheckTask_not_found h]
  | some t =>
    by_cases hs : t.state = .WAITING
    · rcases hc : checkDependencies σ id with ⟨σ₂, b⟩
      have hσ₂ : σ₂ = (checkDependencies σ id).1 := by rw [hc]
      cases b
      · rw [recheckTask_check_false h hs hc, hσ₂, checkDependencies_eq h]
        exact (checkDepsGo_preserves_ne id _ _ σ x hx).1
      · rw [recheckTask_check_true h hs hc,
          (enqueue_preserves _ id x).1, stateOf_setState, if_neg hx, hσ₂,
          checkDependencies_eq h]
        have h2 : (checkDependencies σ id).2 = true := by rw [hc]
        rw [checkDependencies_eq h] at h2
        exact checkDepsGo_true_states id _ _ σ h2 x
    · rw [recheckTask_not_waiting h hs]

theorem recheckTask_config (σ : TaskManagerState) (id x : String) :
    configOf (recheckTask σ id) x = configOf σ x := by
  cases h : lookupTask σ.tasks id with
  | none => rw [recheckTask_not_found h]
  | some t =>
    by_cases hs : t.state = .WAITING
    · rcases hc : checkDependencies σ id with ⟨σ₂, b⟩
      have hσ₂ : σ₂ = (checkDependencies σ id).1 := by rw [hc]
      cases b
      · rw [recheckTask_check_false h hs hc, hσ₂, checkDependencies_config]
      · rw [recheckTask_check_true h hs hc,
          (enqueue_preserves _ id x).2.1, (setState_preserves _ id _ x).1,
          hσ₂, checkDependencies_config]
    · rw [recheckTask_not_waiting h hs]

theorem recheckTask_state_completed {σ : TaskManagerState} {x : String}
    (id : String) (hx : stateOf σ x = some .COMPLETED) :
    stateOf (recheckTask σ id) x = some .COMPLETED := by
  by_cases hid : x = id
  · subst hid
    obtain ⟨t, hl, hs⟩ := stateOf_some_iff.mp hx
    rw [recheckTask_not_waiting hl (by rw [hs]; intro hcon; cases hcon)]
    exact hx
  · rw [recheckTask_state_ne σ id x hid]
    exact hx

theorem recheckTask_state_queued {σ : TaskManagerState} {x : String}
    (id : String) (hx : stateOf σ x = some .QUEUED) :
    stateOf (recheckTask σ id) x = some .QUEUED := by
  by_cases hid : x = id
  · subst hid
    obtain ⟨t, hl, hs⟩ := stateOf_some_iff.mp hx
    rw [recheckTask_not_waiting hl (by rw [hs]; intro hcon; cases hcon)]
    exact hx
  · rw [recheckTask_state_ne σ id x hid]
    exact hx

theorem recheckTask_queues_extend (σ : TaskManagerState) (id : String)
    (p : TaskPriority) :
    ∃ ext, (recheckTask σ id).queues p = σ.queues p ++ ext := by
  cases h : lookupTask σ.tasks id with
  | none => exact ⟨[], by rw [recheckTask_not_found h]; simp⟩
  | some t =>
    by_cases hs : t.state = .WAITING
    · rcases hc : checkDependencies σ id with ⟨σ₂, b⟩
      have hσ₂ : σ₂ = (checkDependencies σ id).1 := by rw [hc]
      cases b
      · refine ⟨[], ?_⟩
        rw [recheckTask_check_false h hs hc, hσ₂, checkDependencies_queues]
        simp
      · obtain ⟨ext, hext⟩ :=
          queues_enqueueTask_extend (setState σ₂ id .QUEUED) id p
        refine ⟨ext, ?_⟩
        rw [recheckTask_check_true h hs hc, hext]
        have hq : (setState σ₂ id .QUEUED).queues p = σ.queues p := by
          rw [setState_queues, hσ₂, checkDependencies_queues]
        rw [hq]
    · exact ⟨[], by rw [recheckTask_not_waiting h hs]; simp⟩

theorem recheckTask_act {σ : TaskManagerState} {u : String} {c : TaskConfig}
    (hw : stateOf σ u = some .WAITING) (hcfg : configOf σ u = some c)
    (hdeps : ∀ d ∈ c.dependencies, stateOf σ d = some .COMPLETED) :
    stateOf (recheckTask σ u) u = some .QUEUED ∧
    u ∈ (recheckTask σ u).queues c.priority := by
  obtain ⟨t, hl, hs⟩ := stateOf_some_iff.mp hw
  have htc : t.config = c := by
    simp only [configOf, hl, Option.map_some', Option.some.injEq] at hcfg
    exact hcfg
  have h2 : (checkDependencies σ u).2 = true := by
    rw [checkDependencies_eq hl]
    exact checkDepsGo_all_completed_true u _ _ σ
      (fun d hd => hdeps d (htc ▸ hd))
  have hc : checkDependencies σ u = ((checkDependencies σ u).1, true) := by
    rw [← h2]
  rw [recheckTask_check_true hl hs hc]
  have hcfg2 : configOf (checkDependencies σ u).1 u = some c := by
    rw [checkDependencies_config]
    exact hcfg
  have hpres : ∃ t₂, lookupTask (checkDependencies σ u).1.tasks u = some t₂ ∧
      t₂.config = c := by
    simp only [configOf, Option.map_eq_some'] at hcfg2
    exact hcfg2
  obtain ⟨t₂, hl₂, ht₂⟩ := hpres
  have hl₃ : lookupTask (setState (checkDependencies σ u).1 u .QUEUED).tasks u =
      some { t₂ with state := .QUEUED } := by
    simp [setState, lookupTask_updateTask, hl₂]
  constructor
  · rw [(enqueue_preserves _ u u).1, stateOf_setState, if_pos rfl]
    simp [stateOf, hl₂]
  · have := queues_enqueueTask_self (setState (checkDependencies σ u).1 u .QUEUED)
      u hl₃
    have hcp : ({ t₂ with state := TaskState.QUEUED } : ManagedTask).config.priority
        = c.priority := by rw [ht₂]
    rw [hcp] at this
    rw [this]
    exact List.mem_append_right _ (List.mem_singleton.mpr rfl)

theorem recheckGo_state_queued {x : String} :
    ∀ (ids : List String) (σ : TaskManagerState),
      stateOf σ x = some .QUEUED →
      stateOf (recheckGo σ ids) x = some .QUEUED := by
  intro ids
  induction ids with
  | nil => intro σ hx; exact hx
  | cons id rest ih =>
    intro σ hx
    exact ih (recheckTask σ id) (recheckTask_state_queued id hx)

theorem recheckGo_state_completed {x : String} :
    ∀ (ids : List String) (σ : TaskManagerState),
      stateOf σ x = some .COMPLETED →
      stateOf (recheckGo σ ids) x = some .COMPLETED := by
  intro ids
  induction ids with
  | nil => intro σ hx; exact hx
  | cons id rest ih =>
    intro σ hx
    exact ih (recheckTask σ id) (recheckTask_state_completed id hx)

theorem recheckGo_config {x : String} :
    ∀ (ids : List String) (σ : TaskManagerState),
      configOf (recheckGo σ ids) x = configOf σ x := by
  intro ids
  induction ids with
  | nil => intro σ; rfl
  | cons id rest ih =>
    intro σ
    exact (ih (recheckTask σ id)).trans (recheckTask_config σ id x)

theorem recheckGo_mem_queue {u : String} {p : TaskPriority} :
    ∀ (ids : List String) (σ : TaskManagerState),
      u ∈ σ.queues p → u ∈ (recheckGo σ ids).queues p := by
  intro ids
  induction ids with
  | nil => intro σ h; exact h
  | cons id rest ih =>
    intro σ h
    refine ih (recheckTask σ id) ?_
    obtain ⟨ext, hext⟩ := recheckTask_queues_extend σ id p
    rw [hext]
    exact List.mem_append_left _ h

theorem recheckGo_main {u : String} {c : TaskConfig} :
    ∀ (ids : List String) (σ : TaskManagerState),
      u ∈ ids →
      stateOf σ u = some .WAITING →
      configOf σ u = some c →
      (∀ d ∈ c.dependencies, stateOf σ d = some .COMPLETED) →
      stateOf (recheckGo σ ids) u = some .QUEUED ∧
      u ∈ (recheckGo σ ids).queues c.priority := by
  intro ids
  induction ids with
  | nil => intro σ hm; simp at hm
  | cons id rest ih =>
    intro σ hm hw hcfg hdeps
    by_cases hid : id = u
    · subst hid
      obtain ⟨hq, hmem⟩ := recheckTask_act hw hcfg hdeps
      show stateOf (recheckGo (recheckTask σ id) rest) id = some .QUEUED ∧ _
      exact ⟨recheckGo_state_queued rest _ hq,
             recheckGo_mem_queue rest _ hmem⟩
    · have hm' : u ∈ rest := by
        rcases List.mem_cons.mp hm with h | h
        · exact absurd h.symm hid
        · exact h
      refine ih (recheckTask σ id) hm' ?_ ?_ ?_
      · rw [recheckTask_state_ne σ id u (fun h => hid h.symm)]
        exact hw
      · rw [recheckTask_config]
        exact hcfg
      · intro d hd
        exact recheckTask_state_completed id (hdeps d hd)

theorem recheckTask_error_ne (σ : TaskManagerState) (id x : String)
    (hx : x ≠ id) : errorOf (recheckTask σ id) x = errorOf σ x := by
  cases h : lookupTask σ.tasks id with
  | none => rw [recheckTask_not_found h]
  | some t =>
    by_cases hs : t.state = .WAITING
    · rcases hc : checkDependencies σ id with ⟨σ₂, b⟩
      have hσ₂ : σ₂ = (checkDependencies σ id).1 := by rw [hc]
      cases b
      · rw [recheckTask_check_false h hs hc, hσ₂, checkDependencies_eq h]
        exact (checkDepsGo_preserves_ne id _ _ σ x hx).2
      · rw [recheckTask_check_true h hs hc,
          (enqueue_preserves _ id x).2.2.1, (setState_preserves _ id _ x).2.1,
          hσ₂, checkDependencies_eq h]
        exact (checkDepsGo_preserves_ne id _ _ σ x hx).2
    · rw [recheckTask_not_waiting h hs]

theorem recheckTask_state_failed {σ : TaskManagerState} {x : String}
    (id : String) (hx : stateOf σ x = some .FAILED) :
    stateOf (recheckTask σ id) x = some .FAILED := by
  by_cases hid : x = id
  · subst hid
    obtain ⟨t, hl, hs⟩ := stateOf_some_iff.mp hx
    rw [recheckTask_not_waiting hl (by rw [hs]; intro hcon; cases hcon)]
    exact hx
  · rw [recheckTask_state_ne σ id x hid]
    exact hx

theorem recheckGo_state_failed {x : String} :
    ∀ (ids : List String) (σ : TaskManagerState),
      stateOf σ x = some .FAILED →
      stateOf (recheckGo σ ids) x = some .FAILED := by
  intro ids
  induction ids with
  | nil => intro σ hx; exact hx
  | cons id rest ih =>
    intro σ hx
    exact ih (recheckTask σ id) (recheckTask_state_failed id hx)

theorem recheckTask_cancelled_keep {σ : TaskManagerState} {x : String}
    (id : String) (hx : stateOf σ x = some .CANCELLED) :
    stateOf (recheckTask σ id) x = some .CANCELLED ∧
    errorOf (recheckTask σ id) x = errorOf σ x := by
  by_cases hid : x = id
  · subst hid
    obtain ⟨t, hl, hs⟩ := stateOf_some_iff.mp hx
    rw [recheckTask_not_waiting hl (by rw [hs]; intro hcon; cases hcon)]
    exact ⟨hx, rfl⟩
  · exact ⟨(recheckTask_state_ne σ id x hid).trans hx,
           recheckTask_error_ne σ id x hid⟩

theorem recheckGo_cancelled_keep {x : String} :
    ∀ (ids : List String) (σ : TaskManagerState),
      stateOf σ x = some .CANCELLED →
      stateOf (recheckGo σ ids) x = some .CANCELLED ∧
      errorOf (recheckGo σ ids) x = errorOf σ x := by
  intro ids
  induction ids with
  | nil => intro σ hx; exact ⟨hx, rfl⟩
  | cons id rest ih =>
    intro σ hx
    obtain ⟨s', e'⟩ := recheckTask_cancelled_keep id hx
    obtain ⟨s'', e''⟩ := ih (recheckTask σ id) s'
    exact ⟨s'', e''.trans e'⟩

theorem recheckTask_act_cancel {σ : TaskManagerState} {u : String}
    {c : TaskConfig} {pre : List String} {d : String} {rest : List String}
    (hw : stateOf σ u = some .WAITING) (hcfg : configOf σ u = some c)
    (hflag : c.cancelOnDependencyFailure = true)
    (hdeps : c.dependencies = pre ++ d :: rest)
    (hpre : ∀ p ∈ pre, stateOf σ p = some .COMPLETED)
    (hd : stateOf σ d = some .FAILED) :
    stateOf (recheckTask σ u) u = some .CANCELLED ∧
    errorOf (recheckTask σ u) u = some (some ("依赖任务失败: " ++ d)) := by
  obtain ⟨t, hl, hs⟩ := stateOf_some_iff.mp hw
  have htc : t.config = c := by
    simp only [configOf, hl, Option.map_some', Option.some.injEq] at hcfg
    exact hcfg
  have hff := checkDepsGo_first_failed u d rest pre σ hpre hd
    (by rw [hl]; rfl)
  have hkey : checkDependencies σ u =
      ((checkDepsGo σ u true (pre ++ d :: rest)).1, false) := by
    rw [checkDependencies_eq hl, htc, hflag, hdeps]
    calc checkDepsGo σ u true (pre ++ d :: rest)
        = ((checkDepsGo σ u true (pre ++ d :: rest)).1,
           (checkDepsGo σ u true (pre ++ d :: rest)).2) := rfl
      _ = ((checkDepsGo σ u true (pre ++ d :: rest)).1, false) := by
          rw [hff.1]
  rw [recheckTask_check_false hl hs hkey]
  exact ⟨hff.2.1, hff.2.2⟩

theorem recheckGo_cancel {u : String} {c : TaskConfig} {pre : List String}
    {d : String} {rest : List String} :
    ∀ (ids : List String) (σ : TaskManagerState),
      u ∈ ids →
      stateOf σ u = some .WAITING → configOf σ u = some c →
      c.cancelOnDependencyFailure = true →
      c.dependencies = pre ++ d :: rest →
      (∀ p ∈ pre, stateOf σ p = some .COMPLETED) →
      stateOf σ d = some .FAILED →
      stateOf (recheckGo σ ids) u = some .CANCELLED ∧
      errorOf (recheckGo σ ids) u =
        some (some ("依赖任务失败: " ++ d)) := by
  intro ids
  induction ids with
  | nil => intro σ hm; simp at hm
  | cons id rest' ih =>
    intro σ hm hw hcfg hflag hdeps hpre hd
    by_cases hid : id = u
    · subst hid
      obtain ⟨hs', he'⟩ := recheckTask_act_cancel hw hcfg hflag hdeps hpre hd
      show stateOf (recheckGo (recheckTask σ id) rest') id =
          some .CANCELLED ∧ _
      obtain ⟨s'', e''⟩ := recheckGo_cancelled_keep rest' (recheckTask σ id) hs'
      exact ⟨s'', e''.trans he'⟩
    · have hm' : u ∈ rest' := by
        rcases List.mem_cons.mp hm with h | h
        · exact absurd h.symm hid
        · exact h
      refine ih (recheckTask σ id) hm' ?_ ?_ hflag hdeps ?_ ?_
      · rw [recheckTask_state_ne σ id u (fun h => hid h.symm)]
        exact hw
      · rw [recheckTask_config]
        exact hcfg
      · intro p hp
        exact recheckTask_state_completed id (hpre p hp)
      · exact recheckTask_state_failed id hd

/-- C7 (amended): (1) `cancel_task` mutates no task other than its target,
so a transition to `CANCELLED` through `cancel_task` re-evaluates no
dependent's dependency check; (2) the scheduler's periodic
`_check_waiting_tasks` sweep re-evaluates every `WAITING` task and, when
the task's declared dependencies are all `COMPLETED`, sets it `QUEUED` and
enqueues it at its configured priority; (3) a task completing through the
executor's success branch immediately re-evaluates each `WAITING`
registered dependent, and a dependent whose other dependencies are
`COMPLETED` is enqueued at its configured priority; (4) a task settling
through the executor's exhausted-failure branch (`_on_task_error` with
retries exhausted) is set `FAILED` and immediately re-evaluates each
`WAITING` registered dependent: a dependent with
`cancel_on_dependency_failure` whose dependency list reaches the failed
task after only `COMPLETED` ones is cancelled on the spot with the
dependency-failure error; (5) a task settling through the executor's
cancellation branch (`_on_task_cancelled`) is set `CANCELLED` and likewise
immediately re-evaluates each `WAITING` registered dependent: one whose
first non-`COMPLETED` dependency is some other `FAILED` task is cancelled
on the spot with that dependency's failure error. -/
theorem terminal_transition_dependent_reevaluation :
    (∀ (σ : TaskManagerState) (id x : String), x ≠ id →
      lookupTask ((cancelTask σ id).1).tasks x = lookupTask σ.tasks x) ∧
    (∀ (σ : TaskManagerState) (u : String) (c : TaskConfig),
      stateOf σ u = some .WAITING → configOf σ u = some c →
      (∀ d ∈ c.dependencies, stateOf σ d = some .COMPLETED) →
      stateOf (checkWaitingTasks σ) u = some .QUEUED ∧
      u ∈ (checkWaitingTasks σ).queues c.priority) ∧
    (∀ (σ : TaskManagerState) (tid : String) (tt : ManagedTask)
        (u : String) (c : TaskConfig),
      lookupTask σ.tasks tid = some tt → u ∈ tt.dependents → u ≠ tid →
      stateOf σ u = some .WAITING → configOf σ u = some c →
      (∀ d ∈ c.dependencies, d = tid ∨ stateOf σ d = some .COMPLETED) →
      stateOf (onTaskSuccess σ tid) u = some .QUEUED ∧
      u ∈ (onTaskSuccess σ tid).queues c.priority) ∧
    (∀ (σ : TaskManagerState) (tid : String) (tt : ManagedTask)
        (msg : String) (u : String) (c : TaskConfig)
        (pre rest : List String),
      lookupTask σ.tasks tid = some tt → tt.canRetry = false →
      u ∈ tt.dependents → u ≠ tid →
      stateOf σ u = some .WAITING → configOf σ u = some c →
      c.cancelOnDependencyFailure = true →
      c.dependencies = pre ++ tid :: rest →
      (∀ p ∈ pre, p ≠ tid ∧ stateOf σ p = some .COMPLETED) →
      stateOf (onTaskError σ tid msg) tid = some .FAILED ∧
      stateOf (onTaskError σ tid msg) u = some .CANCELLED ∧
      errorOf (onTaskError σ tid msg) u =
        some (some ("依赖任务失败: " ++ tid))) ∧
    (∀ (σ : TaskManagerState) (tid : String) (tt : ManagedTask)
        (u : String) (c : TaskConfig) (pre : List String) (d : String)
        (rest : List String),
      lookupTask σ.tasks tid = some tt →
      u ∈ tt.dependents → u ≠ tid →
      stateOf σ u = some .WAITING → configOf σ u = some c →
      c.cancelOnDependencyFailure = true →
      c.dependencies = pre ++ d :: rest → d ≠ tid →
      (∀ p ∈ pre, p ≠ tid ∧ stateOf σ p = some .COMPLETED) →
      stateOf σ d = some .FAILED →
      stateOf (onTaskCancelled σ tid) tid = some .CANCELLED ∧
      stateOf (onTaskCancelled σ tid) u = some .CANCELLED ∧
      errorOf (onTaskCancelled σ tid) u =
        some (some ("依赖任务失败: " ++ d))) := by
  refine ⟨?_, ?_, ?_, ?_, ?_⟩
  · intro σ id x hx
    unfold cancelTask
    cases h : lookupTask σ.tasks id with
    | none => rfl
    | some t =>
      by_cases h1 : t.state = .RUNNING ∧ t.handle = true
      · simp only [if_pos h1]
        rw [lookupTask_updateTask, if_neg hx]
      · by_cases h2 : t.state = .QUEUED ∨ t.state = .WAITING
        · simp only [if_neg h1, if_pos h2]
          show lookupTask (setState σ id .CANCELLED).tasks x = _
          rw [show (setState σ id .CANCELLED).tasks =
              updateTask σ.tasks id (fun t => { t with state := .CANCELLED })
              from rfl, lookupTask_updateTask, if_neg hx]
        · simp [h1, h2]
  · intro σ u c hw hcfg hdeps
    obtain ⟨t, hl, _⟩ := stateOf_some_iff.mp hw
    exact recheckGo_main (σ.tasks.map Prod.fst) σ
      (lookup_some_mem_keys hl) hw hcfg hdeps
  · intro σ tid tt u c hl hu hne hw hcfg hdeps
    unfold onTaskSuccess
    have htasks : ∀ y : String,
        lookupTask (updateTask σ.tasks tid
          (fun t => { t with state := .COMPLETED })) y =
        if y = tid then some { tt with state := .COMPLETED }
        else lookupTask σ.tasks y := by
      intro y
      rw [lookupTask_updateTask]
      by_cases hy : y = tid
      · simp [hy, hl]
      · simp [hy]
    have hl₂ : lookupTask (updateTask σ.tasks tid
        (fun t => { t with state := .COMPLETED })) tid =
        some { tt with state := .COMPLETED } := by
      rw [htasks]; simp
    simp only [notifyDependents]
    rw [show ∀ σ' : TaskManagerState, σ'.tasks = σ'.tasks from fun _ => rfl]
    · show stateOf (match lookupTask _ tid with
        | none => _
        | some t => recheckGo _ t.dependents) u = some .QUEUED ∧ _
      rw [show (lookupTask (updateTask σ.tasks tid
          (fun t => { t with state := .COMPLETED })) tid) =
          some { tt with state := .COMPLETED } from hl₂]
      refine recheckGo_main _ _ hu ?_ ?_ ?_
      · show stateOf _ u = some .WAITING
        simp only [stateOf, htasks u, if_neg hne]
        exact hw
      · simp only [configOf, htasks u, if_neg hne]
        exact hcfg
      · intro d hd
        rcases hdeps d hd with hd' | hd'
        · subst hd'
          simp [stateOf, htasks d]
        · by_cases hdt : d = tid
          · subst hdt
            simp [stateOf, htasks d]
          · simp only [stateOf, htasks d, if_neg hdt]
            exact hd'
  · -- exhausted-failure settlement
    intro σ tid tt msg u c pre rest hl hcr hu hne hw hcfg hflag hdeps hpre
    have hcr' : ¬ tt.canRetry = true := by rw [hcr]; exact Bool.false_ne_true
    have htasks : ∀ y : String,
        lookupTask (updateTask σ.tasks tid
          (fun t => { t with state := .FAILED, error := some msg })) y =
        if y = tid then some { tt with state := .FAILED, error := some msg }
        else lookupTask σ.tasks y := by
      intro y
      rw [lookupTask_updateTask]
      by_cases hy : y = tid
      · simp [hy, hl]
      · simp [hy]
    have herr : onTaskError σ tid msg =
        notifyDependents
          { σ with
            tasks := updateTask σ.tasks tid
              (fun t => { t with state := .FAILED, error := some msg })
            stats := { σ.stats with
              totalFailed := σ.stats.totalFailed + 1 } } tid := by
      simp [onTaskError, hl, hcr']
    have hnd : notifyDependents
        { σ with
          tasks := updateTask σ.tasks tid
            (fun t => { t with state := .FAILED, error := some msg })
          stats := { σ.stats with
            totalFailed := σ.stats.totalFailed + 1 } } tid =
        recheckGo
          { σ with
            tasks := updateTask σ.tasks tid
              (fun t => { t with state := .FAILED, error := some msg })
            stats := { σ.stats with
              totalFailed := σ.stats.totalFailed + 1 } } tt.dependents := by
      simp [notifyDependents, htasks tid]
    rw [herr, hnd]
    have hdF : stateOf
        { σ with
          tasks := updateTask σ.tasks tid
            (fun t => { t with state := .FAILED, error := some msg })
          stats := { σ.stats with
            totalFailed := σ.stats.totalFailed + 1 } } tid =
        some .FAILED := by
      simp [stateOf, htasks tid]
    obtain ⟨hcanc, herru⟩ := recheckGo_cancel tt.dependents _ hu
      (by simp only [stateOf, htasks u, if_neg hne]; exact hw)
      (by simp only [configOf, htasks u, if_neg hne]; exact hcfg)
      hflag hdeps
      (fun p hp => by
        simp only [stateOf, htasks p, if_neg (hpre p hp).1]
        exact (hpre p hp).2)
      hdF
    exact ⟨recheckGo_state_failed tt.dependents _ hdF, hcanc, herru⟩
  · -- cancellation settlement
    intro σ tid tt u c pre d rest hl hu hne hw hcfg hflag hdeps hdne hpre hd
    have htasks : ∀ y : String,
        lookupTask (updateTask σ.tasks tid
          (fun t => { t with state := .CANCELLED })) y =
        if y = tid then some { tt with state := .CANCELLED }
        else lookupTask σ.tasks y := by
      intro y
      rw [lookupTask_updateTask]
      by_cases hy : y = tid
      · simp [hy, hl]
      · simp [hy]
    have hcanc : onTaskCancelled σ tid =
        notifyDependents
          { σ with
            tasks := updateTask σ.tasks tid
              (fun t => { t with state := .CANCELLED })
            stats := { σ.stats with
              totalCancelled := σ.stats.totalCancelled + 1 } } tid := by
      simp [onTaskCancelled]
    have hnd : notifyDependents
        { σ with
          tasks := updateTask σ.tasks tid
            (fun t => { t with state := .CANCELLED })
          stats := { σ.stats with
            totalCancelled := σ.stats.totalCancelled + 1 } } tid =
        recheckGo
          { σ with
            tasks := updateTask σ.tasks tid
              (fun t => { t with state := .CANCELLED })
            stats := { σ.stats with
              totalCancelled := σ.stats.totalCancelled + 1 } }
          tt.dependents := by
      simp [notifyDependents, htasks tid]
    rw [hcanc, hnd]
    have htC : stateOf
        { σ with
          tasks := updateTask σ.tasks tid
            (fun t => { t with state := .CANCELLED })
          stats := { σ.stats with
            totalCancelled := σ.stats.totalCancelled + 1 } } tid =
        some .CANCELLED := by
      simp [stateOf, htasks tid]
    have hdF : stateOf
        { σ with
          tasks := updateTask σ.tasks tid
            (fun t => { t with state := .CANCELLED })
          stats := { σ.stats with
            totalCancelled := σ.stats.totalCancelled + 1 } } d =
        some .FAILED := by
      simp only [stateOf, htasks d, if_neg hdne]
      exact hd
    obtain ⟨hcu, heu⟩ := recheckGo_cancel tt.dependents _ hu
      (by simp only [stateOf, htasks u, if_neg hne]; exact hw)
      (by simp only [configOf, htasks u, if_neg hne]; exact hcfg)
      hflag hdeps
      (fun p hp => by
        simp only [stateOf, htasks p, if_neg (hpre p hp).1]
        exact (hpre p hp).2)
      hdF
    exact ⟨(recheckGo_cancelled_keep tt.dependents _ htC).1, hcu, heu⟩

/-- Witness for the amended C7 theorem: `cancel_task` on the cancelled-dep
scenario leaves the other task's record untouched; in
`waitingSatisfiedState` the sweep enqueues the waiting task `b`; in
`successNotifyState` completing `t` enqueues its dependent `u`, while a
terminal failure of `t` cancels `u` with the dependency-failure error; in
`cancelNotifyState` the cancellation of `t2` re-checks its dependent `u2`,
which is cancelled because of the already-failed `dF`. -/
theorem terminal_transition_dependent_reevaluation_witness :
    lookupTask ((cancelTask oneQueuedScenario "task_1_1").1).tasks "other" =
      lookupTask oneQueuedScenario.tasks "other" ∧
    (stateOf (checkWaitingTasks waitingSatisfiedState) "b" =
      some .QUEUED ∧
      "b" ∈ (checkWaitingTasks waitingSatisfiedState).queues
        TaskPriority.NORMAL) ∧
    (stateOf (onTaskSuccess successNotifyState "t") "u" = some .QUEUED ∧
      "u" ∈ (onTaskSuccess successNotifyState "t").queues
        TaskPriority.NORMAL) ∧
    (stateOf (onTaskError successNotifyState "t" "boom") "t" =
        some .FAILED ∧
      stateOf (onTaskError successNotifyState "t" "boom") "u" =
        some .CANCELLED ∧
      errorOf (onTaskError successNotifyState "t" "boom") "u" =
        some (some ("依赖任务失败: " ++ "t"))) ∧
    (stateOf (onTaskCancelled cancelNotifyState "t2") "t2" =
        some .CANCELLED ∧
      stateOf (onTaskCancelled cancelNotifyState "t2") "u2" =
        some .CANCELLED ∧
      errorOf (onTaskCancelled cancelNotifyState "t2") "u2" =
        some (some ("依赖任务失败: " ++ "dF"))) :=
  ⟨terminal_transition_dependent_reevaluation.1 oneQueuedScenario
     "task_1_1" "other" (by decide),
   terminal_transition_dependent_reevaluation.2.1 waitingSatisfiedState
     "b" {dependencies := ["a"]} rfl rfl (by decide),
   terminal_transition_dependent_reevaluation.2.2.1 successNotifyState
     "t" _ "u" {dependencies := ["t"]} rfl (by decide) (by decide) rfl rfl
     (by decide),
   terminal_transition_dependent_reevaluation.2.2.2.1 successNotifyState
     "t" _ "boom" "u" {dependencies := ["t"]} [] [] rfl rfl (by decide)
     (by decide) rfl rfl rfl rfl (by simp),
   terminal_transition_dependent_reevaluation.2.2.2.2 cancelNotifyState
     "t2" _ "u2" {dependencies := ["dF", "t2"]} [] "dF" ["t2"] rfl
     (by decide) (by decide) rfl rfl rfl rfl (by decide) (by simp) rfl⟩

/-! ## Retry-invariant preservation -/

theorem retryOK_of_fields {f : ManagedTask → ManagedTask}
    (hf : ∀ t, (f t).retryCount = t.retryCount ∧ (f t).config = t.config)
    (v : ManagedTask) (hv : RetryOK v) : RetryOK (f v) := by
  unfold RetryOK at *
  rw [(hf v).1, (hf v).2]
  exact hv

theorem retryInvL_updateTask {ts : List (String × ManagedTask)} {id : String}
    {f : ManagedTask → ManagedTask}
    (hf : ∀ v, lookupTask ts id = some v → RetryOK v → RetryOK (f v))
    (h : retryInvL ts) : retryInvL (updateTask ts id f) := by
  intro p hp
  rcases mem_updateTask hp with hp' | ⟨v, hv, hpv⟩
  · exact h p hp'
  · rw [hpv]
    exact hf v hv (h (id, v) (lookup_some_mem hv))

theorem retryInvL_insertTask {ts : List (String × ManagedTask)} {id : String}
    {t : ManagedTask} (ht : RetryOK t) (h : retryInvL ts) :
    retryInvL (insertTask ts id t) := by
  intro p hp
  rcases mem_insertTask hp with hp' | hp'
  · exact h p hp'
  · rw [hp']
    exact ht

theorem retryInv_register (σ : TaskManagerState) (a u : String)
    (h : retryInv σ) : retryInv (registerDependent σ a u) := by
  refine retryInvL_updateTask (fun v _ hv => ?_) h
  exact @retryOK_of_fields
    (fun t => if u ∈ t.dependents then t
      else { t with dependents := t.dependents ++ [u] })
    (fun t => by by_cases hm : u ∈ t.dependents <;> simp [hm]) v hv

theorem retryInv_cancelDep (σ : TaskManagerState) (tid d : String)
    (h : retryInv σ) : retryInv (cancelForDepFailure σ tid d) :=
  retryInvL_updateTask
    (fun v _ hv => retryOK_of_fields (fun _ => ⟨rfl, rfl⟩) v hv) h

theorem retryInv_setState (σ : TaskManagerState) (id : String) (s : TaskState)
    (h : retryInv σ) : retryInv (setState σ id s) :=
  retryInvL_updateTask
    (fun v _ hv => retryOK_of_fields (fun _ => ⟨rfl, rfl⟩) v hv) h

theorem retryInv_enqueue (σ : TaskManagerState) (u : String)
    (h : retryInv σ) : retryInv (enqueueTask σ u) := by
  unfold retryInv
  rw [tasks_enqueueTask]
  exact h

theorem retryInv_checkDepsGo (tid : String) (flag : Bool) :
    ∀ (ds : List String) (σ : TaskManagerState), retryInv σ →
      retryInv (checkDepsGo σ tid flag ds).1 := by
  intro ds
  induction ds with
  | nil => intro σ h; exact h
  | cons d rest ih =>
    intro σ h
    cases hl : lookupTask σ.tasks d with
    | none => rw [checkDepsGo_cons_none hl]; exact h
    | some dep =>
      by_cases hc : dep.state = .COMPLETED
      · rw [checkDepsGo_cons_completed hl hc]
        exact ih _ (retryInv_register σ d tid h)
      · by_cases hf : dep.state = .FAILED ∧ flag = true
        · rw [checkDepsGo_cons_failed hl hc hf]
          exact retryInv_cancelDep _ tid d (retryInv_register σ d tid h)
        · rw [checkDepsGo_cons_blocked hl hc hf]
          exact retryInv_register σ d tid h

theorem retryInv_checkDependencies (σ : TaskManagerState) (id : String)
    (h : retryInv σ) : retryInv (checkDependencies σ id).1 := by
  unfold checkDependencies
  cases hl : lookupTask σ.tasks id with
  | none => exact h
  | some t => exact retryInv_checkDepsGo id _ _ σ h

theorem retryInv_recheckTask (σ : TaskManagerState) (id : String)
    (h : retryInv σ) : retryInv (recheckTask σ id) := by
  cases hl : lookupTask σ.tasks id with
  | none => rw [recheckTask_not_found hl]; exact h
  | some t =>
    by_cases hs : t.state = .WAITING
    · rcases hc : checkDependencies σ id with ⟨σ₂, b⟩
      have hσ₂ : σ₂ = (checkDependencies σ id).1 := by rw [hc]
      cases b
      · rw [recheckTask_check_false hl hs hc, hσ₂]
        exact retryInv_checkDependencies σ id h
      · rw [recheckTask_check_true hl hs hc]
        refine retryInv_enqueue _ id (retryInv_setState _ id _ ?_)
        rw [hσ₂]
        exact retryInv_checkDependencies σ id h
    · rw [recheckTask_not_waiting hl hs]
      exact h

theorem retryInv_recheckGo :
    ∀ (ids : List String) (σ : TaskManagerState), retryInv σ →
      retryInv (recheckGo σ ids) := by
  intro ids
  induction ids with
  | nil => intro σ h; exact h
  | cons id rest ih =>
    intro σ h
    exact ih _ (retryInv_recheckTask σ id h)

theorem retryInv_notify (σ : TaskManagerState) (id : String)
    (h : retryInv σ) : retryInv (notifyDependents σ id) := by
  unfold notifyDependents
  cases hl : lookupTask σ.tasks id with
  | none => exact h
  | some t => exact retryInv_recheckGo t.dependents σ h

theorem retryInv_onSuccess (σ : TaskManagerState) (id : String)
    (h : retryInv σ) : retryInv (onTaskSuccess σ id) := by
  refine retryInv_notify _ id ?_
  exact retryInvL_updateTask
    (fun v _ hv => retryOK_of_fields (fun _ => ⟨rfl, rfl⟩) v hv) h

theorem retryInv_onCancelled (σ : TaskManagerState) (id : String)
    (h : retryInv σ) : retryInv (onTaskCancelled σ id) := by
  refine retryInv_notify _ id ?_
  exact retryInvL_updateTask
    (fun v _ hv => retryOK_of_fields (fun _ => ⟨rfl, rfl⟩) v hv) h

theorem retryInv_onError (σ : TaskManagerState) (id : String) (msg : String)
    (h : retryInv σ) : retryInv (onTaskError σ id msg) := by
  unfold onTaskError
  cases hl : lookupTask σ.tasks id with
  | none => exact h
  | some t =>
    by_cases hr : t.canRetry
    · simp only [hr, if_pos]
      refine retryInv_enqueue _ id ?_
      refine retryInvL_updateTask (fun v hv hok => ?_) h
      rw [hl] at hv
      cases hv
      unfold RetryOK ManagedTask.canRetry at *
      simp only [decide_eq_true_eq] at hr
      simpa using hr
    · simp only [hr, if_neg]
      refine retryInv_notify _ id ?_
      exact retryInvL_updateTask
        (fun v _ hv => retryOK_of_fields (fun _ => ⟨rfl, rfl⟩) v hv) h

theorem retryInv_execStart (σ : TaskManagerState) (id : String)
    (h : retryInv σ) : retryInv (executeTaskStart σ id) :=
  retryInvL_updateTask
    (fun v _ hv => retryOK_of_fields (fun _ => ⟨rfl, rfl⟩) v hv) h

theorem retryInv_execute (σ : TaskManagerState) (id : String)
    (outcome : RunOutcome) (h : retryInv σ) :
    retryInv (executeTask σ id outcome) := by
  unfold executeTask
  cases hl : lookupTask σ.tasks id with
  | none => exact h
  | some t =>
    unfold executeTaskFinish
    cases outcome with
    | success => exact retryInv_onSuccess _ id (retryInv_execStart σ id h)
    | failure msg => exact retryInv_onError _ id msg (retryInv_execStart σ id h)
    | cancelled => exact retryInv_onCancelled _ id (retryInv_execStart σ id h)

theorem retryInv_submitInserted (σ : TaskManagerState) (now : Nat)
    (name : Option String) (cfg : Option TaskConfig) (h : retryInv σ) :
    retryInv (submitInserted σ now name cfg) :=
  retryInvL_insertTask (Nat.zero_le _) h

theorem retryInv_submitOk {σ σ' : TaskManagerState} {now : Nat}
    {name : Option String} {cfg : Option TaskConfig} {id' : String}
    (hok : submitTask σ now name cfg = .ok (σ', id')) (h : retryInv σ) :
    retryInv σ' := by
  by_cases hr : σ.running = true
  · by_cases hne : (cfg.getD {}).dependencies ≠ []
    · rw [submitTask_running_deps hr hne] at hok
      rcases hc : checkDependencies (submitInserted σ now name cfg)
          (makeTaskId (σ.taskCounter + 1) now) with ⟨σ₂, b⟩
      have hσ₂ : σ₂ = (checkDependencies (submitInserted σ now name cfg)
          (makeTaskId (σ.taskCounter + 1) now)).1 := by rw [hc]
      have hinv₂ : retryInv σ₂ := by
        rw [hσ₂]
        exact retryInv_checkDependencies _ _
          (retryInv_submitInserted σ now name cfg h)
      rw [hc] at hok
      cases b
      · cases hok
        exact retryInv_setState σ₂ _ _ hinv₂
      · cases hok
        exact retryInv_enqueue _ _ (retryInv_setState σ₂ _ _ hinv₂)
    · rw [not_not] at hne
      unfold submitTask at hok
      rw [if_neg (by simp [hr])] at hok
      dsimp only at hok
      rw [if_neg (by simp [hne])] at hok
      cases hok
      exact retryInv_enqueue _ _
        (retryInv_setState _ _ _ (retryInv_submitInserted σ now name cfg h))
  · rw [submitTask_not_running (by simpa using hr)] at hok
    cases hok

theorem retryInv_cancelTask (σ : TaskManagerState) (id : String)
    (h : retryInv σ) : retryInv (cancelTask σ id).1 := by
  unfold cancelTask
  cases hl : lookupTask σ.tasks id with
  | none => exact h
  | some t =>
    by_cases h1 : t.state = .RUNNING ∧ t.handle = true
    · simp only [if_pos h1]
      exact retryInvL_updateTask
        (fun v _ hv => retryOK_of_fields (fun _ => ⟨rfl, rfl⟩) v hv) h
    · by_cases h2 : t.state = .QUEUED ∨ t.state = .WAITING
      · simp only [if_neg h1, if_pos h2]
        exact retryInvL_updateTask
          (fun v _ hv => retryOK_of_fields (fun _ => ⟨rfl, rfl⟩) v hv) h
      · simp only [if_neg h1, if_neg h2]
        exact h

theorem retryInv_start (σ : TaskManagerState) (h : retryInv σ) :
    retryInv (startManager σ) := by
  unfold startManager
  split
  · exact h
  · exact h

theorem retryInv_applyOp (σ : TaskManagerState) (op : ManagerOp)
    (h : retryInv σ) : retryInv (applyOp σ op) := by
  cases op with
  | start => exact retryInv_start σ h
  | submit now name cfg =>
    rcases hsub : submitTask σ now name cfg with e | pair
    · have happ : applyOp σ (.submit now name cfg) = σ := by
        simp [applyOp, hsub]
      rw [happ]
      exact h
    · obtain ⟨σ', id'⟩ := pair
      have happ : applyOp σ (.submit now name cfg) = σ' := by
        simp [applyOp, hsub]
      rw [happ]
      exact retryInv_submitOk hsub h
  | execute id outcome => exact retryInv_execute σ id outcome h
  | cancel id => exact retryInv_cancelTask σ id h
  | notify id => exact retryInv_notify σ id h
  | checkWaiting => exact retryInv_recheckGo _ σ h

theorem retryInv_runOps :
    ∀ (ops : List ManagerOp) (σ : TaskManagerState), retryInv σ →
      retryInv (runOps σ ops) := by
  intro ops
  induction ops with
  | nil => intro σ h; exact h
  | cons op rest ih =>
    intro σ h
    exact ih _ (retryInv_applyOp σ op h)

theorem retryInv_initial (n : Nat) : retryInv (initialManager n) := by
  intro p hp
  simp [initialManager] at hp

/-! ## Where `FAILED` can be entered -/

theorem checkDepsGo_state_self (tid : String) (flag : Bool) :
    ∀ (ds : List String) (σ : TaskManagerState),
      stateOf (checkDepsGo σ tid flag ds).1 tid = stateOf σ tid ∨
      stateOf (checkDepsGo σ tid flag ds).1 tid = some .CANCELLED := by
  intro ds
  induction ds with
  | nil => intro σ; exact Or.inl rfl
  | cons d rest ih =>
    intro σ
    cases hl : lookupTask σ.tasks d with
    | none => rw [checkDepsGo_cons_none hl]; exact Or.inl rfl
    | some dep =>
      by_cases hc : dep.state = .COMPLETED
      · rw [checkDepsGo_cons_completed hl hc]
        rcases ih (registerDependent σ d tid) with h | h
        · exact Or.inl (h.trans (register_preserves σ d tid tid).1)
        · exact Or.inr h
      · by_cases hf : dep.state = .FAILED ∧ flag = true
        · rw [checkDepsGo_cons_failed hl hc hf]
          cases hr : lookupTask (registerDependent σ d tid).tasks tid with
          | none =>
            refine Or.inl ?_
            have h1 : stateOf (cancelForDepFailure
                (registerDependent σ d tid) tid d) tid = none := by
              simp [stateOf, cancelForDepFailure, lookupTask_updateTask, hr]
            have h2 : stateOf σ tid = none := by
              rw [← (register_preserves σ d tid tid).1]
              simp [stateOf, hr]
            rw [h1, h2]
          | some t' =>
            exact Or.inr (cancelDep_self (registerDependent σ d tid) tid d hr).1
        · rw [checkDepsGo_cons_blocked hl hc hf]
          exact Or.inl (register_preserves σ d tid tid).1

theorem checkDependencies_state_ne (σ : TaskManagerState) (id x : String)
    (hx : x ≠ id) :
    stateOf (checkDependencies σ id).1 x = stateOf σ x := by
  unfold checkDependencies
  cases hl : lookupTask σ.tasks id with
  | none => rfl
  | some t => exact (checkDepsGo_preserves_ne id _ _ σ x hx).1

theorem checkDependencies_state_self (σ : TaskManagerState) (id : String) :
    stateOf (checkDependencies σ id).1 id = stateOf σ id ∨
    stateOf (checkDependencies σ id).1 id = some .CANCELLED := by
  unfold checkDependencies
  cases hl : lookupTask σ.tasks id with
  | none => exact Or.inl rfl
  | some t => exact checkDepsGo_state_self id _ _ σ

theorem recheckTask_failed_back {σ : TaskManagerState} {id x : String}
    (h : stateOf (recheckTask σ id) x = some .FAILED) :
    stateOf σ x = some .FAILED := by
  by_cases hx : x = id
  · subst hx
    cases hl : lookupTask σ.tasks x with
    | none => rw [recheckTask_not_found hl] at h; exact h
    | some t =>
      by_cases hs : t.state = .WAITING
      · rcases hc : checkDependencies σ x with ⟨σ₂, b⟩
        have hσ₂ : σ₂ = (checkDependencies σ x).1 := by rw [hc]
        cases b
        · rw [recheckTask_check_false hl hs hc, hσ₂] at h
          rcases checkDependencies_state_self σ x with hself | hself
          · rw [hself] at h; exact h
          · rw [hself] at h; cases h
        · rw [recheckTask_check_true hl hs hc,
            (enqueue_preserves _ x x).1, stateOf_setState, if_pos rfl] at h
          cases h2 : stateOf σ₂ x with
          | none => rw [h2] at h; cases h
          | some s => rw [h2] at h; simp at h
      · rw [recheckTask_not_waiting hl hs] at h; exact h
  · rw [recheckTask_state_ne σ id x hx] at h
    exact h

theorem recheckGo_failed_back {x : String} :
    ∀ (ids : List String) (σ : TaskManagerState),
      stateOf (recheckGo σ ids) x = some .FAILED →
      stateOf σ x = some .FAILED := by
  intro ids
  induction ids with
  | nil => intro σ h; exact h
  | cons id rest ih =>
    intro σ h
    exact recheckTask_failed_back (ih _ h)

theorem notifyDependents_failed_back {σ : TaskManagerState} {id x : String}
    (h : stateOf (notifyDependents σ id) x = some .FAILED) :
    stateOf σ x = some .FAILED := by
  unfold notifyDependents at h
  cases hl : lookupTask σ.tasks id with
  | none => rw [hl] at h; exact h
  | some t =>
    rw [hl] at h
    exact recheckGo_failed_back t.dependents σ h

theorem onTaskSuccess_failed_back {σ : TaskManagerState} {id x : String}
    (h : stateOf (onTaskSuccess σ id) x = some .FAILED) :
    stateOf σ x = some .FAILED := by
  unfold onTaskSuccess at h
  have h2 := notifyDependents_failed_back h
  by_cases hx : x = id
  · subst hx
    simp only [stateOf, lookupTask_updateTask, if_pos rfl] at h2
    cases hl : lookupTask σ.tasks x with
    | none => rw [hl] at h2; cases h2
    | some t => rw [hl] at h2; simp at h2
  · simp only [stateOf, lookupTask_updateTask, if_neg hx] at h2
    exact h2

theorem onTaskCancelled_failed_back {σ : TaskManagerState} {id x : String}
    (h : stateOf (onTaskCancelled σ id) x = some .FAILED) :
    stateOf σ x = some .FAILED := by
  unfold onTaskCancelled at h
  have h2 := notifyDependents_failed_back h
  by_cases hx : x = id
  · subst hx
    simp only [stateOf, lookupTask_updateTask, if_pos rfl] at h2
    cases hl : lookupTask σ.tasks x with
    | none => rw [hl] at h2; cases h2
    | some t => rw [hl] at h2; simp at h2
  · simp only [stateOf, lookupTask_updateTask, if_neg hx] at h2
    exact h2

theorem stateOf_execStart (σ : TaskManagerState) (id x : String) :
    stateOf (executeTaskStart σ id) x =
      if x = id then (stateOf σ x).map (fun _ => .RUNNING)
      else stateOf σ x := by
  simp only [stateOf, executeTaskStart, lookupTask_updateTask]
  by_cases hx : x = id
  · subst hx
    cases hl : lookupTask σ.tasks x <;> simp [hl]
  · simp [hx]

theorem onTaskError_retry_self {σ : TaskManagerState} {id : String}
    (msg : String) {t : ManagedTask} (hl : lookupTask σ.tasks id = some t)
    (hcr : t.canRetry = true) :
    stateOf (onTaskError σ id msg) id = some .QUEUED := by
  simp only [onTaskError, hl, hcr]
  rw [if_pos trivial, (enqueue_preserves _ id id).1]
  simp [stateOf, lookupTask_updateTask, hl]

theorem onTaskError_failed_back_ne {σ : TaskManagerState} {id x : String}
    {msg : String} (hx : x ≠ id)
    (h : stateOf (onTaskError σ id msg) x = some .FAILED) :
    stateOf σ x = some .FAILED := by
  unfold onTaskError at h
  cases hl : lookupTask σ.tasks id with
  | none => rw [hl] at h; exact h
  | some t =>
    rw [hl] at h
    by_cases hcr : t.canRetry = true
    · simp only [hcr, if_pos] at h
      rw [(enqueue_preserves _ id x).1] at h
      simp only [stateOf, lookupTask_updateTask, if_neg hx] at h
      exact h
    · simp only [hcr, if_neg] at h
      have h2 := notifyDependents_failed_back h
      simp only [stateOf, lookupTask_updateTask, if_neg hx] at h2
      exact h2

theorem cancelTask_failed_back {σ : TaskManagerState} {id x : String}
    (h : stateOf (cancelTask σ id).1 x = some .FAILED) :
    stateOf σ x = some .FAILED := by
  unfold cancelTask at h
  cases hl : lookupTask σ.tasks id with
  | none => rw [hl] at h; exact h
  | some t =>
    rw [hl] at h
    by_cases h1 : t.state = .RUNNING ∧ t.handle = true
    · simp only [if_pos h1] at h
      simp only [stateOf, lookupTask_updateTask] at h
      by_cases hx : x = id
      · subst hx
        rw [if_pos rfl] at h
        cases hl2 : lookupTask σ.tasks x with
        | none => rw [hl2] at h; cases h
        | some u =>
          rw [hl2] at h
          simp only [Option.map_some', Option.some.injEq] at h
          simp [stateOf, hl2, ← h]
      · rw [if_neg hx] at h
        exact h
    · by_cases h2 : t.state = .QUEUED ∨ t.state = .WAITING
      · simp only [if_neg h1, if_pos h2] at h
        by_cases hx : x = id
        · subst hx
          rw [show stateOf { setState σ x TaskState.CANCELLED with
              stats := { (setState σ x TaskState.CANCELLED).stats with
                totalCancelled :=
                  (setState σ x TaskState.CANCELLED).stats.totalCancelled
                    + 1 } } x = stateOf (setState σ x .CANCELLED) x from rfl,
            stateOf_setState, if_pos rfl] at h
          cases h2' : stateOf σ x with
          | none => rw [h2'] at h; cases h
          | some s => rw [h2'] at h; simp at h
        · rw [show stateOf { setState σ id TaskState.CANCELLED with
              stats := { (setState σ id TaskState.CANCELLED).stats with
                totalCancelled :=
                  (setState σ id TaskState.CANCELLED).stats.totalCancelled
                    + 1 } } x = stateOf (setState σ id .CANCELLED) x from rfl,
            stateOf_setState, if_neg hx] at h
          exact h
      · simp only [if_neg h1, if_neg h2] at h
        exact h

theorem submitOk_failed_back {σ σ' : TaskManagerState} {now : Nat}
    {name : Option String} {cfg : Option TaskConfig} {id' x : String}
    (hok : submitTask σ now name cfg = .ok (σ', id'))
    (h : stateOf σ' x = some .FAILED) :
    stateOf σ x = some .FAILED := by
  have hins : ∀ y : String,
      stateOf (submitInserted σ now name cfg) y = some .FAILED →
      stateOf σ y = some .FAILED := by
    intro y hy
    simp only [stateOf, submitInserted, lookupTask_insertTask] at hy
    by_cases hyn : y = makeTaskId (σ.taskCounter + 1) now
    · rw [if_pos hyn] at hy
      simp [newSubmittedTask] at hy
    · rw [if_neg hyn] at hy
      exact hy
  by_cases hr : σ.running = true
  · by_cases hne : (cfg.getD {}).dependencies ≠ []
    · rw [submitTask_running_deps hr hne] at hok
      rcases hc : checkDependencies (submitInserted σ now name cfg)
          (makeTaskId (σ.taskCounter + 1) now) with ⟨σ₂, b⟩
      have hσ₂ : σ₂ = (checkDependencies (submitInserted σ now name cfg)
          (makeTaskId (σ.taskCounter + 1) now)).1 := by rw [hc]
      rw [hc] at hok
      cases b
      · cases hok
        rw [stateOf_setState] at h
        by_cases hx : x = makeTaskId (σ.taskCounter + 1) now
        · rw [if_pos hx] at h
          cases h2 : stateOf σ₂ x with
          | none => rw [h2] at h; cases h
          | some s => rw [h2] at h; simp at h
        · rw [if_neg hx] at h
          rw [hσ₂, checkDependencies_state_ne _ _ _ hx] at h
          exact hins x h
      · cases hok
        rw [(enqueue_preserves _ _ x).1, stateOf_setState] at h
        by_cases hx : x = makeTaskId (σ.taskCounter + 1) now
        · rw [if_pos hx] at h
          cases h2 : stateOf σ₂ x with
          | none => rw [h2] at h; cases h
          | some s => rw [h2] at h; simp at h
        · rw [if_neg hx] at h
          rw [hσ₂, checkDependencies_state_ne _ _ _ hx] at h
          exact hins x h
    · rw [not_not] at hne
      unfold submitTask at hok
      rw [if_neg (by simp [hr])] at hok
      dsimp only at hok
      rw [if_neg (by simp [hne])] at hok
      cases hok
      rw [(enqueue_preserves _ _ x).1, stateOf_setState] at h
      by_cases hx : x = makeTaskId (σ.taskCounter + 1) now
      · rw [if_pos hx] at h
        cases h2 : stateOf (submitInserted σ now name cfg) x with
        | none => rw [h2] at h; cases h
        | some s => rw [h2] at h; simp at h
      · rw [if_neg hx] at h
        exact hins x h
  · rw [submitTask_not_running (by simpa using hr)] at hok
    cases hok

theorem stateOf_startManager (σ : TaskManagerState) (x : String) :
    stateOf (startManager σ) x = stateOf σ x := by
  unfold startManager
  split
  · rfl
  · rfl

/-- C5: `retry_count ≤ max_retries` holds for every task in every state
reachable by any sequence of operations from a fresh manager; and a task
enters `FAILED` (a `FAILED` state appears where there was none) only
through an executor run whose attempt failed, at a moment when
`retry_count = max_retries` — i.e. only after `max_retries + 1` failing
attempts, since `retry_count` counts the earlier failing attempts
(task_manager.py:101-104 and 409-451). -/
theorem retry_invariant_and_failed_entry :
    (∀ (n : Nat) (ops : List ManagerOp),
      retryInv (runOps (initialManager n) ops)) ∧
    (∀ (σ : TaskManagerState) (op : ManagerOp) (x : String),
      retryInv σ → stateOf σ x ≠ some .FAILED →
      stateOf (applyOp σ op) x = some .FAILED →
      (∃ msg, op = .execute x (.failure msg)) ∧
      ∃ t, lookupTask σ.tasks x = some t ∧
        t.retryCount = t.config.maxRetries) := by
  constructor
  · intro n ops
    exact retryInv_runOps ops _ (retryInv_initial n)
  · intro σ op x hinv hpre hpost
    cases op with
    | start =>
      rw [show applyOp σ .start = startManager σ from rfl,
        stateOf_startManager] at hpost
      exact absurd hpost hpre
    | submit now name cfg =>
      rcases hsub : submitTask σ now name cfg with e | pair
      · have happ : applyOp σ (.submit now name cfg) = σ := by
          simp [applyOp, hsub]
        rw [happ] at hpost
        exact absurd hpost hpre
      · obtain ⟨σ', id'⟩ := pair
        have happ : applyOp σ (.submit now name cfg) = σ' := by
          simp [applyOp, hsub]
        rw [happ] at hpost
        exact absurd (submitOk_failed_back hsub hpost) hpre
    | cancel id =>
      rw [show applyOp σ (.cancel id) = (cancelTask σ id).1 from rfl] at hpost
      exact absurd (cancelTask_failed_back hpost) hpre
    | notify id =>
      rw [show applyOp σ (.notify id) = notifyDependents σ id from rfl]
        at hpost
      exact absurd (notifyDependents_failed_back hpost) hpre
    | checkWaiting =>
      rw [show applyOp σ .checkWaiting = checkWaitingTasks σ from rfl] at hpost
      exact absurd (recheckGo_failed_back _ σ hpost) hpre
    | execute id outcome =>
      rw [show applyOp σ (.execute id outcome) = executeTask σ id outcome
        from rfl] at hpost
      cases hl : lookupTask σ.tasks id with
      | none =>
        rw [show executeTask σ id outcome = σ from by simp [executeTask, hl]]
          at hpost
        exact absurd hpost hpre
      | some t =>
        rw [show executeTask σ id outcome =
            executeTaskFinish (executeTaskStart σ id) id outcome
          from by simp [executeTask, hl]] at hpost
        have hback : ∀ y, y ≠ id →
            stateOf (executeTaskStart σ id) y = stateOf σ y := by
          intro y hy
          rw [stateOf_execStart, if_neg hy]
        cases outcome with
        | success =>
          have h2 := onTaskSuccess_failed_back
            (show stateOf (onTaskSuccess (executeTaskStart σ id) id) x =
              some .FAILED from hpost)
          by_cases hx : x = id
          · subst hx
            rw [stateOf_execStart, if_pos rfl] at h2
            cases h3 : stateOf σ x with
            | none => rw [h3] at h2; cases h2
            | some s => rw [h3] at h2; simp at h2
          · rw [hback x hx] at h2
            exact absurd h2 hpre
        | cancelled =>
          have h2 := onTaskCancelled_failed_back
            (show stateOf (onTaskCancelled (executeTaskStart σ id) id) x =
              some .FAILED from hpost)
          by_cases hx : x = id
          · subst hx
            rw [stateOf_execStart, if_pos rfl] at h2
            cases h3 : stateOf σ x with
            | none => rw [h3] at h2; cases h2
            | some s => rw [h3] at h2; simp at h2
          · rw [hback x hx] at h2
            exact absurd h2 hpre
        | failure msg =>
          have hls : lookupTask (executeTaskStart σ id).tasks id =
              some { t with state := .RUNNING, handle := true } := by
            simp [executeTaskStart, lookupTask_updateTask, hl]
          have hpost' : stateOf (onTaskError (executeTaskStart σ id) id msg)
              x = some .FAILED := hpost
          have hcrEq : ({ t with state := .RUNNING, handle := true } :
              ManagedTask).canRetry = t.canRetry := rfl
          by_cases hcr : t.canRetry = true
          · by_cases hx : x = id
            · subst hx
              have hq := onTaskError_retry_self msg hls (hcrEq.trans hcr)
              rw [hq] at hpost'
              simp at hpost'
            · have h2 := onTaskError_failed_back_ne hx hpost'
              rw [hback x hx] at h2
              exact absurd h2 hpre
          · by_cases hx : x = id
            · subst hx
              refine ⟨⟨msg, rfl⟩, t, hl, ?_⟩
              have hle : t.config.maxRetries ≤ t.retryCount := by
                simp [ManagedTask.canRetry] at hcr
                omega
              have hge : t.retryCount ≤ t.config.maxRetries :=
                hinv (x, t) (lookup_some_mem hl)
              omega
            · have h2 := onTaskError_failed_back_ne hx hpost'
              rw [hback x hx] at h2
              exact absurd h2 hpre

/-- Witness for the C5 theorem: the invariant holds after a start and a
submission from a fresh three-slot manager, and in `zeroRetryState`
(`max_retries = 0`) a failing attempt drives task `a` into `FAILED` with
`retry_count = max_retries = 0`. -/
theorem retry_invariant_and_failed_entry_witness :
    retryInv (runOps (initialManager 3)
      [ManagerOp.start, ManagerOp.submit 1 none none]) ∧
    ((∃ msg, ManagerOp.execute "a" (RunOutcome.failure "boom") =
        ManagerOp.execute "a" (.failure msg)) ∧
      ∃ t, lookupTask zeroRetryState.tasks "a" = some t ∧
        t.retryCount = t.config.maxRetries) :=
  ⟨retry_invariant_and_failed_entry.1 3 [.start, .submit 1 none none],
   retry_invariant_and_failed_entry.2 zeroRetryState
     (.execute "a" (.failure "boom")) "a"
     (by unfold retryInv retryInvL RetryOK; decide) (by decide)
     (by decide)⟩

end MoFox
